import Mathlib

/-!
Shallow embedding of the SQL tokenizer in `src/sqlparser/src/lexer.rs` of the
atlas query engine.  The `Token`, `TokenType` and `Location` data types and the
keyword table live in the crate's token module, which is not among the visible
sources; those are modelled from the spec (sections 3 and 6).  Every lexer
operation below is translated from `lexer.rs` itself.

The Rust loops (`skip`, the line-comment loop in the `-` arm, `read_literal`,
`read_number`, the string-literal loop) and the recursive comment restart in
`next` are encoded as fuel-indexed structural recursions so that all concrete
runs compute by kernel reduction; every wrapper passes `rest.length + 1` fuel,
which is shown sufficient where general statements need it.  `nextScanF`
additionally returns, as a ghost first component, the list of characters the
call skipped (whitespace and line comments); the Rust function does not return
these, they are carried only so that properties about skipped characters can be
stated, and the token/state components never depend on them.
-/

/-- Modelled from the spec: `TokenType` (token module, not in the visible
sources) is a closed set of tags: end-of-input, illegal, single-character
punctuation, the two-character compound operators, identifier, integer, float,
string, and one tag per reserved keyword; a keyword tag carries the reserved
word it was resolved to. The misspelling `ILLIGAL` follows the lexer source,
which names the variant `TokenType::ILLIGAL`. -/
inductive TokenType where
  | EOF
  | ILLIGAL
  | Eq
  | NotEq
  | Bang
  | Lt
  | Lte
  | Gt
  | Gte
  | Semicolon
  | Colon
  | DoubleColon
  | Period
  | LParen
  | RParen
  | Comma
  | Plus
  | Minus
  | Asterisk
  | Slash
  | Question
  | LBrace
  | RBrace
  | LSquareBrace
  | RSquareBrace
  | Ident
  | Int
  | Float
  | String
  | Keyword (kw : String)
deriving DecidableEq

/-- Modelled from the spec: `Location` (token module, not in the visible
sources) holds the full text of the containing line, a 0-based line index and
a 0-based column counter; `Lexer::location` fills it from `lines`, `cur_line`
and `cur_pos`. -/
structure Location where
  line_str : String
  line : Nat
  column : Nat
deriving DecidableEq

/-- Modelled from the spec: a `Token` (token module, not in the visible
sources) is a kind tag, the literal text that produced it, and a location. -/
structure Token where
  token_type : TokenType
  literal : String
  location : Location
deriving DecidableEq

/-- `const EMPTY_CHAR: char = '\0';` — the end-of-input sentinel. -/
def EMPTY_CHAR : Char := Char.ofNat 0

/-- The single-quote character (ASCII 39), written via `Char.ofNat`. -/
def QUOTE : Char := Char.ofNat 39

/-- Left brace character (ASCII 123). -/
def LBRACE_CHAR : Char := Char.ofNat 123

/-- Right brace character (ASCII 125). -/
def RBRACE_CHAR : Char := Char.ofNat 125

/-- Rust's `char::is_whitespace`: the Unicode `White_Space` property.  (Lean's
`Char.isWhitespace` covers only space, tab, CR and LF, so the full table is
spelled out.) -/
def rustIsWhitespace (c : Char) : Bool :=
  let n := c.toNat
  (9 ≤ n && n ≤ 13) || n == 32 || n == 0x85 || n == 0xA0 || n == 0x1680 ||
  (0x2000 ≤ n && n ≤ 0x200A) || n == 0x2028 || n == 0x2029 || n == 0x202F ||
  n == 0x205F || n == 0x3000

/-- Split a character list at every newline; used to model Rust's
`str::lines`.  Always returns at least one (possibly empty) segment. -/
def splitNl : List Char → List (List Char)
  | [] => [[]]
  | '\n' :: rest => [] :: splitNl rest
  | c :: rest =>
    match splitNl rest with
    | [] => [[c]]
    | l :: ls => (c :: l) :: ls

/-- Rust's `str::lines` as used by `Lexer::new`: split on `'\n'`, drop a final
empty segment (no trailing empty line), and strip a trailing `'\r'` from each
line. -/
def rustLines (input : String) : List String :=
  let parts := splitNl input.data
  let parts := if parts.getLast? = some [] then parts.dropLast else parts
  parts.map (fun l => String.mk (if l.getLast? = some '\r' then l.dropLast else l))

/-- Modelled from the spec: the reserved words of the external keyword table
(`TokenType::lookup_ident` in the token module, not in the visible sources);
the table contents are taken from the spec's test scenarios (section 8). -/
def keywordStrings : List String :=
  ["select", "distinct", "from", "as", "where", "and", "or", "group", "by",
   "limit", "extract", "year"]

/-- ASCII lower-casing of a string, character by character. -/
def asciiLower (s : String) : String :=
  String.mk (s.data.map (fun c => if 'A' ≤ c && c ≤ 'Z' then Char.ofNat (c.toNat + 32) else c))

/-- Modelled from the spec: the external keyword lookup maps reserved words
(case-insensitively, per the `EXTRACT(YEAR ...)` test scenario) to their
keyword tag and everything else to the identifier tag. -/
def lookup_ident (s : String) : TokenType :=
  if keywordStrings.contains (asciiLower s) then TokenType.Keyword (asciiLower s)
  else TokenType.Ident

/-- The lexer state (`struct Lexer` in `lexer.rs`): the characters still in the
`Peekable<Chars>` iterator (everything after `cur_ch`), the one-token lookahead
buffer, the precomputed line table, and the cursor (`cur_line`, `cur_pos`,
`cur_ch`). -/
structure Lexer where
  rest : List Char
  peeked : Option Token
  lines : List String
  cur_line : Nat
  cur_pos : Nat
  cur_ch : Char
deriving DecidableEq

/-- `Lexer::new`: split the input into lines, pull the first character into
`cur_ch` (or the `EMPTY_CHAR` sentinel when the input is empty), counters at
zero, no buffered token. -/
def Lexer.new (input : String) : Lexer where
  rest := input.data.tail
  peeked := none
  lines := rustLines input
  cur_line := 0
  cur_pos := 0
  cur_ch := input.data.headD EMPTY_CHAR

/-- `Lexer::read_char`: move the next character of the iterator into `cur_ch`;
when the iterator is exhausted set the sentinel and return without touching the
counters; otherwise bump `cur_line` when the new character is a newline and
always bump `cur_pos`. -/
def Lexer.read_char (l : Lexer) : Lexer :=
  match l.rest with
  | [] => { l with cur_ch := EMPTY_CHAR }
  | c :: cs =>
    { l with
      cur_ch := c
      rest := cs
      cur_line := if c = '\n' then l.cur_line + 1 else l.cur_line
      cur_pos := l.cur_pos + 1 }

/-- `Lexer::peek_char`: `self.peekable.peek().unwrap_or(&EMPTY_CHAR)`. -/
def Lexer.peek_char (l : Lexer) : Char :=
  l.rest.headD EMPTY_CHAR

/-- `Lexer::location`: the current diagnostic position; the line text comes
from the precomputed table (`unwrap_or_default` on a missing index). -/
def Lexer.location (l : Lexer) : Location where
  line_str := l.lines.getD l.cur_line ""
  line := l.cur_line
  column := l.cur_pos

/-- Fueled form of `Lexer::skip`'s `loop`.  The Rust `match` consumes the
current character while `char::is_whitespace` holds; its later `'\n' | '\t'`
and `'\r'` arms are unreachable because those characters already satisfy the
first arm's `is_whitespace` guard (see `newline_tab_cr_are_whitespace`).  The
first component is the ghost list of consumed (skipped) characters. -/
def Lexer.skipF : Nat → Lexer → List Char × Lexer
  | 0, l => ([], l)
  | n + 1, l =>
    if rustIsWhitespace l.cur_ch then
      let r := Lexer.skipF n l.read_char
      (l.cur_ch :: r.1, r.2)
    else ([], l)

/-- `Lexer::skip`, with enough fuel for its loop. -/
def Lexer.skip (l : Lexer) : Lexer :=
  (Lexer.skipF (l.rest.length + 1) l).2

/-- The `'\n' | '\t'` and `'\r'` arms of `Lexer::skip` are dead code: Rust's
`is_whitespace` already covers all three characters. -/
theorem newline_tab_cr_are_whitespace :
    rustIsWhitespace '\n' = true ∧ rustIsWhitespace '\t' = true ∧
      rustIsWhitespace '\r' = true := by decide

/-- Fueled form of the comment loop in the `-` arm of `Lexer::next`:
`while self.cur_ch != '\n' && self.cur_ch != EMPTY_CHAR { self.read_char(); }`.
The first component is the ghost list of consumed characters. -/
def Lexer.skipToEolF : Nat → Lexer → List Char × Lexer
  | 0, l => ([], l)
  | n + 1, l =>
    if l.cur_ch ≠ '\n' ∧ l.cur_ch ≠ EMPTY_CHAR then
      let r := Lexer.skipToEolF n l.read_char
      (l.cur_ch :: r.1, r.2)
    else ([], l)

/-- The loop condition of `Lexer::read_literal`:
`is_ascii_alphabetic || is_ascii_alphanumeric || '_'` (the first test is
subsumed by the second, as in the source). -/
def identChar (c : Char) : Bool :=
  c.isAlpha || c.isAlphanum || c = '_'

/-- The common accumulate-while loop shape of `Lexer::read_literal` and
`Lexer::read_number`: push the current character and advance while the
condition holds (fueled). -/
def Lexer.readCharsF (p : Char → Bool) : Nat → String → Lexer → String × Lexer
  | 0, acc, l => (acc, l)
  | n + 1, acc, l =>
    if p l.cur_ch then Lexer.readCharsF p n (acc.push l.cur_ch) l.read_char
    else (acc, l)

/-- Fueled form of `Lexer::read_literal`: push the current character and
advance while `identChar` holds. -/
def Lexer.read_literalF : Nat → String → Lexer → String × Lexer :=
  Lexer.readCharsF identChar

/-- The loop condition of `Lexer::read_number`: `is_ascii_digit || '.'`. -/
def numChar (c : Char) : Bool :=
  c.isDigit || c = '.'

/-- Fueled form of `Lexer::read_number`: push the current character and advance
while `numChar` holds. -/
def Lexer.read_numberF : Nat → String → Lexer → String × Lexer :=
  Lexer.readCharsF numChar

/-- Fueled form of the string-literal `loop` in the `'` arm of `Lexer::next`:
advance, then break on a closing quote (first component `true`, the state still
holding the closing quote), return early on the sentinel (first component
`false`, the unterminated-string case), otherwise push the character and
continue. -/
def Lexer.read_stringF : Nat → String → Lexer → Bool × String × Lexer
  | 0, s, l => (false, s, l)
  | n + 1, s, l =>
    let l := l.read_char
    if l.cur_ch = QUOTE then (true, s, l)
    else if l.cur_ch = EMPTY_CHAR then (false, s, l)
    else Lexer.read_stringF n (s.push l.cur_ch) l

/-- Fueled form of the scanning part of `Lexer::next` (everything after the
`peeked` buffer check): skip, capture `literal` from the current character,
dispatch on the current character in source order, and perform the trailing
`self.read_char()` on every arm that does not `return` early.  The fuel is
consumed only by the comment arm's `return self.next()` restart.  The first
component is the ghost list of skipped characters (whitespace and comment
characters); the token and state components mirror the Rust code exactly. -/
def Lexer.nextScanF : Nat → Lexer → List Char × Token × Lexer
  | 0, l => ([], Token.mk TokenType.EOF "" l.location, l)
  | n + 1, l =>
    let sk := Lexer.skipF (l.rest.length + 1) l
    let skl := sk.1
    let l := sk.2
    let literal := String.singleton l.cur_ch
    if l.cur_ch = EMPTY_CHAR then
      (skl, Token.mk TokenType.EOF "" l.location, l.read_char)
    else if l.cur_ch = '=' then
      (skl, Token.mk TokenType.Eq "=" l.location, l.read_char)
    else if l.cur_ch = '!' then
      if l.peek_char = '=' then
        let l := l.read_char
        (skl, Token.mk TokenType.NotEq "!=" l.location, l.read_char)
      else (skl, Token.mk TokenType.Bang literal l.location, l.read_char)
    else if l.cur_ch = '<' then
      if l.peek_char = '=' then
        let l := l.read_char
        (skl, Token.mk TokenType.Lte "<=" l.location, l.read_char)
      else (skl, Token.mk TokenType.Lt literal l.location, l.read_char)
    else if l.cur_ch = '>' then
      if l.peek_char = '=' then
        let l := l.read_char
        (skl, Token.mk TokenType.Gte ">=" l.location, l.read_char)
      else (skl, Token.mk TokenType.Gt literal l.location, l.read_char)
    else if l.cur_ch = ';' then
      (skl, Token.mk TokenType.Semicolon literal l.location, l.read_char)
    else if l.cur_ch = ':' then
      let l := l.read_char
      if l.cur_ch = ':' then
        let l := l.read_char
        (skl, Token.mk TokenType.DoubleColon "::" l.location, l)
      else (skl, Token.mk TokenType.Colon literal l.location, l.read_char)
    else if l.cur_ch = '.' then
      (skl, Token.mk TokenType.Period literal l.location, l.read_char)
    else if l.cur_ch = '(' then
      (skl, Token.mk TokenType.LParen literal l.location, l.read_char)
    else if l.cur_ch = ')' then
      (skl, Token.mk TokenType.RParen literal l.location, l.read_char)
    else if l.cur_ch = ',' then
      (skl, Token.mk TokenType.Comma literal l.location, l.read_char)
    else if l.cur_ch = '+' then
      (skl, Token.mk TokenType.Plus literal l.location, l.read_char)
    else if l.cur_ch = LBRACE_CHAR then
      (skl, Token.mk TokenType.LBrace literal l.location, l.read_char)
    else if l.cur_ch = '[' then
      (skl, Token.mk TokenType.LSquareBrace literal l.location, l.read_char)
    else if l.cur_ch = ']' then
      (skl, Token.mk TokenType.RSquareBrace literal l.location, l.read_char)
    else if l.cur_ch = RBRACE_CHAR then
      (skl, Token.mk TokenType.RBrace literal l.location, l.read_char)
    else if l.cur_ch = '-' then
      if l.peek_char = '-' then
        let r := Lexer.skipToEolF (l.rest.length + 1) l
        let rec2 := Lexer.nextScanF n r.2
        (skl ++ r.1 ++ rec2.1, rec2.2.1, rec2.2.2)
      else (skl, Token.mk TokenType.Minus literal l.location, l.read_char)
    else if l.cur_ch = '*' then
      (skl, Token.mk TokenType.Asterisk literal l.location, l.read_char)
    else if l.cur_ch = '/' then
      (skl, Token.mk TokenType.Slash literal l.location, l.read_char)
    else if l.cur_ch = '?' then
      (skl, Token.mk TokenType.Question literal l.location, l.read_char)
    else if l.cur_ch = QUOTE then
      let r := Lexer.read_stringF (l.rest.length + 1) "" l
      if r.1 then (skl, Token.mk TokenType.String r.2.1 r.2.2.location, r.2.2.read_char)
      else (skl, Token.mk TokenType.ILLIGAL literal r.2.2.location, r.2.2)
    else if l.cur_ch.isAlpha then
      let r := Lexer.read_literalF (l.rest.length + 1) "" l
      (skl, Token.mk (lookup_ident r.1) r.1 r.2.location, r.2)
    else if l.cur_ch.isDigit then
      let r := Lexer.read_numberF (l.rest.length + 1) "" l
      (skl, Token.mk (if r.1.data.contains '.' then TokenType.Float else TokenType.Int) r.1 r.2.location, r.2)
    else
      (skl, Token.mk TokenType.ILLIGAL literal l.location, l.read_char)

/-- `Lexer::next`: drain the lookahead buffer if it is full, otherwise scan a
fresh token.  Returns the token together with the successor lexer state
(explicit state passing for the Rust `&mut self`). -/
def Lexer.next (l : Lexer) : Token × Lexer :=
  match l.peeked with
  | some tok => (tok, { l with peeked := none })
  | none =>
    let r := Lexer.nextScanF (l.rest.length + 1) l
    (r.2.1, r.2.2)

/-- The ghost skipped-character list of a `Lexer::next` call: empty when the
buffer is drained, otherwise the whitespace/comment characters the scan
consumed before (and between comment restarts of) the emitted token. -/
def Lexer.nextSkipped (l : Lexer) : List Char :=
  match l.peeked with
  | some _ => []
  | none => (Lexer.nextScanF (l.rest.length + 1) l).1

/-- `Lexer::peek`: fill the lookahead buffer by scanning when it is empty, and
return the buffered token without consuming it. -/
def Lexer.peek (l : Lexer) : Token × Lexer :=
  match l.peeked with
  | some tok => (tok, l)
  | none =>
    let r := Lexer.next l
    (r.1, { r.2 with peeked := some r.1 })

/-- Successive `next()` calls, collecting tokens up to and including the first
end-of-input token (fuel bounds the number of calls). -/
def Lexer.tokensF : Nat → Lexer → List Token
  | 0, _ => []
  | n + 1, l =>
    let r := Lexer.next l
    if r.1.token_type = TokenType.EOF then [r.1]
    else r.1 :: Lexer.tokensF n r.2

/-- Successive scans, collecting for each `next()` call the skipped characters
followed by the emitted token's literal text, up to and including the first
end-of-input token. -/
def Lexer.piecesF : Nat → Lexer → List (List Char)
  | 0, _ => []
  | n + 1, l =>
    let r := Lexer.nextScanF (l.rest.length + 1) l
    let piece := r.1 ++ r.2.1.literal.data
    if r.2.1.token_type = TokenType.EOF then [piece]
    else piece :: Lexer.piecesF n r.2.2

/-- The characters the lexer still has to process: the character under the
cursor (unless it is the sentinel) followed by the iterator's remainder. -/
def Lexer.remainingChars (l : Lexer) : List Char :=
  if l.cur_ch = EMPTY_CHAR then [] else l.cur_ch :: l.rest

/-- A character the reconstruction invariant can digest: not the `EMPTY_CHAR`
sentinel (which the lexer conflates with end-of-input), not a quote (string
tokens drop their quotes), not a colon (the `:` arm consumes one character too
many). -/
def CharOk (c : Char) : Prop :=
  c ≠ EMPTY_CHAR ∧ c ≠ QUOTE ∧ c ≠ ':'

instance (c : Char) : Decidable (CharOk c) :=
  inferInstanceAs (Decidable (_ ∧ _ ∧ _))

/-- States whose unprocessed characters are all `CharOk`, and whose sentinel
only shows at true end-of-input. -/
def Lexer.Good (l : Lexer) : Prop :=
  (l.cur_ch = EMPTY_CHAR → l.rest = []) ∧
  (l.cur_ch ≠ EMPTY_CHAR → CharOk l.cur_ch) ∧
  (∀ c ∈ l.rest, CharOk c)

instance (l : Lexer) : Decidable l.Good :=
  inferInstanceAs (Decidable (_ ∧ _ ∧ _))

/-- States that contain no `EMPTY_CHAR` sentinel except at true end-of-input:
exactly the states reachable from an input without NUL characters. -/
def Lexer.NoNul (l : Lexer) : Prop :=
  (l.cur_ch = EMPTY_CHAR → l.rest = []) ∧ EMPTY_CHAR ∉ l.rest

instance (l : Lexer) : Decidable l.NoNul :=
  inferInstanceAs (Decidable (_ ∧ _))

/-- Number of nested `next()` invocations a scan performs: the `-` arm's line
comment handling ends in `return self.next()`, every other arm returns without
re-entering `next`, so only the comment guard (current character `-`, peeked
character `-`; no earlier arm of the dispatch matches `-`) recurses. -/
def Lexer.nextScanDepthF : Nat → Lexer → Nat
  | 0, _ => 1
  | n + 1, l =>
    let l := (Lexer.skipF (l.rest.length + 1) l).2
    if l.cur_ch = '-' ∧ l.peek_char = '-' then
      1 + Lexer.nextScanDepthF n (Lexer.skipToEolF (l.rest.length + 1) l).2
    else 1

/-- Call depth of one `next()` call: 1 when the buffer is drained or the scan
hits no line comment, and one more for each consecutive comment restart. -/
def Lexer.nextDepth (l : Lexer) : Nat :=
  match l.peeked with
  | some _ => 1
  | none => Lexer.nextScanDepthF (l.rest.length + 1) l

/-- `n` consecutive line-comment lines (`--\n` each) followed by `x`. -/
def commChars : Nat → List Char
  | 0 => ['x']
  | n + 1 => '-' :: '-' :: '\n' :: commChars n

/-- The input string consisting of `n` comment lines followed by `x`. -/
def commInput (n : Nat) : String :=
  String.mk (commChars n)

/-! ### Basic facts about the cursor -/

theorem Lexer.read_char_peeked (l : Lexer) : l.read_char.peeked = l.peeked := by
  unfold Lexer.read_char; cases l.rest <;> rfl

theorem Lexer.read_char_lines (l : Lexer) : l.read_char.lines = l.lines := by
  unfold Lexer.read_char; cases l.rest <;> rfl

theorem Lexer.read_char_rest_le (l : Lexer) : l.read_char.rest.length ≤ l.rest.length := by
  unfold Lexer.read_char; cases l.rest <;> simp

theorem Lexer.remainingChars_step {l : Lexer} (h0 : l.cur_ch ≠ EMPTY_CHAR)
    (hr : EMPTY_CHAR ∉ l.rest) :
    l.remainingChars = l.cur_ch :: l.read_char.remainingChars := by
  unfold Lexer.remainingChars Lexer.read_char
  cases h : l.rest with
  | nil => simp [h0]
  | cons c cs =>
    have hc : c ≠ EMPTY_CHAR := fun e => hr (by rw [h, e]; exact List.mem_cons_self _ _)
    simp [h0, hc]

theorem Lexer.NoNul.read_char_noNul {l : Lexer} (h : l.NoNul) : l.read_char.NoNul := by
  unfold Lexer.read_char
  cases hr : l.rest with
  | nil => simp [Lexer.NoNul]
  | cons c cs =>
    have h2 := h.2
    rw [hr] at h2
    simp only [List.mem_cons, not_or] at h2
    exact ⟨fun hc => absurd hc.symm h2.1, h2.2⟩

theorem Lexer.Good.read_char_good {l : Lexer} (h : l.Good) : l.read_char.Good := by
  unfold Lexer.read_char
  cases hr : l.rest with
  | nil => simp [Lexer.Good]
  | cons c cs =>
    have h2 := h.2.2
    rw [hr] at h2
    have hcok : CharOk c := h2 c (List.mem_cons_self _ _)
    exact ⟨fun hc => absurd hc hcok.1, fun _ => hcok,
      fun d hd => h2 d (List.mem_cons_of_mem _ hd)⟩

theorem Lexer.Good.noNul {l : Lexer} (h : l.Good) : l.NoNul :=
  ⟨h.1, fun hm => (h.2.2 _ hm).1 rfl⟩

theorem Lexer.takeWhile_remaining_step (p : Char → Bool) (hp : p EMPTY_CHAR = false)
    {l : Lexer} (h : p l.cur_ch = true) :
    l.remainingChars.takeWhile p = l.cur_ch :: (l.read_char.remainingChars.takeWhile p) := by
  have h0 : l.cur_ch ≠ EMPTY_CHAR := fun e => by rw [e, hp] at h; cases h
  unfold Lexer.remainingChars Lexer.read_char
  cases hr : l.rest with
  | nil => simp [h0, h]
  | cons c cs =>
    by_cases hc : c = EMPTY_CHAR
    · subst hc; simp [h0, h, hp]
    · simp [h0, h, hc]

theorem Lexer.dropWhile_remaining_step (p : Char → Bool) (hp : p EMPTY_CHAR = false)
    {l : Lexer} (h : p l.cur_ch = true) (hr : EMPTY_CHAR ∉ l.rest) :
    l.remainingChars.dropWhile p = l.read_char.remainingChars.dropWhile p := by
  have h0 : l.cur_ch ≠ EMPTY_CHAR := fun e => by rw [e, hp] at h; cases h
  rw [Lexer.remainingChars_step h0 hr, List.dropWhile_cons_of_pos h]

/-! ### The whitespace-skip loop -/

theorem ne_empty_of_ws {c : Char} (h : rustIsWhitespace c = true) : c ≠ EMPTY_CHAR :=
  fun e => by rw [e] at h; exact absurd h (by decide)

theorem Lexer.read_char_cur_of_nil {l : Lexer} (hr : l.rest = []) :
    l.read_char.cur_ch = EMPTY_CHAR := by
  unfold Lexer.read_char; rw [hr]

theorem Lexer.read_char_rest_of_cons {l : Lexer} {c : Char} {cs : List Char}
    (hr : l.rest = c :: cs) : l.read_char.rest = cs := by
  unfold Lexer.read_char; rw [hr]

theorem Lexer.read_char_rest_of_nil {l : Lexer} (hr : l.rest = []) :
    l.read_char.rest = [] := by
  unfold Lexer.read_char; rw [hr]

theorem Lexer.read_char_cur_of_cons {l : Lexer} {c : Char} {cs : List Char}
    (hr : l.rest = c :: cs) : l.read_char.cur_ch = c := by
  unfold Lexer.read_char; rw [hr]

theorem Lexer.skipF_not_ws {l : Lexer} (h : ¬ rustIsWhitespace l.cur_ch = true) :
    ∀ n, Lexer.skipF n l = ([], l) := by
  intro n; cases n with
  | zero => rfl
  | succ n => simp [Lexer.skipF, h]

theorem Lexer.skipF_peeked : ∀ (n : Nat) (l : Lexer), (Lexer.skipF n l).2.peeked = l.peeked := by
  intro n
  induction n with
  | zero => intro l; rfl
  | succ n ih =>
    intro l
    by_cases h : rustIsWhitespace l.cur_ch = true
    · simp [Lexer.skipF, h, ih, Lexer.read_char_peeked]
    · simp [Lexer.skipF, h]

theorem Lexer.skipF_lines : ∀ (n : Nat) (l : Lexer), (Lexer.skipF n l).2.lines = l.lines := by
  intro n
  induction n with
  | zero => intro l; rfl
  | succ n ih =>
    intro l
    by_cases h : rustIsWhitespace l.cur_ch = true
    · simp [Lexer.skipF, h, ih, Lexer.read_char_lines]
    · simp [Lexer.skipF, h]

theorem Lexer.skipF_rest_le : ∀ (n : Nat) (l : Lexer),
    (Lexer.skipF n l).2.rest.length ≤ l.rest.length := by
  intro n
  induction n with
  | zero => intro l; exact Nat.le_refl _
  | succ n ih =>
    intro l
    by_cases h : rustIsWhitespace l.cur_ch = true
    · simpa [Lexer.skipF, h] using Nat.le_trans (ih l.read_char) (Lexer.read_char_rest_le l)
    · simp [Lexer.skipF, h]

theorem Lexer.skipF_spec : ∀ (n : Nat) (l : Lexer), l.rest.length < n → l.NoNul →
    l.remainingChars = (Lexer.skipF n l).1 ++ (Lexer.skipF n l).2.remainingChars
    ∧ rustIsWhitespace (Lexer.skipF n l).2.cur_ch = false
    ∧ (Lexer.skipF n l).2.NoNul
    ∧ (l.Good → (Lexer.skipF n l).2.Good) := by
  intro n
  induction n with
  | zero => intro l h; exact absurd h (Nat.not_lt_zero _)
  | succ n ih =>
    intro l hlen hnn
    by_cases h : rustIsWhitespace l.cur_ch = true
    · have hne : l.cur_ch ≠ EMPTY_CHAR := ne_empty_of_ws h
      have hstep : l.remainingChars = l.cur_ch :: l.read_char.remainingChars :=
        Lexer.remainingChars_step hne hnn.2
      cases hr : l.rest with
      | nil =>
        have hws2 : ¬ rustIsWhitespace l.read_char.cur_ch = true := by
          rw [Lexer.read_char_cur_of_nil hr]; decide
        have hrw : Lexer.skipF (n + 1) l = ([l.cur_ch], l.read_char) := by
          simp [Lexer.skipF, h, Lexer.skipF_not_ws hws2]
        rw [hrw]
        refine ⟨by simpa using hstep, by simpa using hws2, hnn.read_char_noNul, fun hg => hg.read_char_good⟩
      | cons c cs =>
        have hrw : Lexer.skipF (n + 1) l =
            (l.cur_ch :: (Lexer.skipF n l.read_char).1, (Lexer.skipF n l.read_char).2) := by
          simp [Lexer.skipF, h]
        have hlen2 : l.read_char.rest.length < n := by
          rw [Lexer.read_char_rest_of_cons hr]
          rw [hr] at hlen; simpa using Nat.lt_succ_iff.mp hlen
        have ihr := ih l.read_char hlen2 hnn.read_char_noNul
        rw [hrw]
        refine ⟨?_, ihr.2.1, ihr.2.2.1, fun hg => ihr.2.2.2 hg.read_char_good⟩
        rw [hstep, ihr.1]; simp
    · have hrw : Lexer.skipF (n + 1) l = ([], l) := Lexer.skipF_not_ws h _
      rw [hrw]
      exact ⟨by simp, by simpa using h, hnn, fun hg => hg⟩

/-! ### The comment-skip loop -/

theorem Lexer.skipToEolF_not {l : Lexer} (h : ¬(l.cur_ch ≠ '\n' ∧ l.cur_ch ≠ EMPTY_CHAR)) :
    ∀ n, Lexer.skipToEolF n l = ([], l) := by
  intro n; cases n with
  | zero => rfl
  | succ n => simp only [Lexer.skipToEolF, if_neg h]

theorem Lexer.skipToEolF_peeked : ∀ (n : Nat) (l : Lexer),
    (Lexer.skipToEolF n l).2.peeked = l.peeked := by
  intro n
  induction n with
  | zero => intro l; rfl
  | succ n ih =>
    intro l
    by_cases h : l.cur_ch ≠ '\n' ∧ l.cur_ch ≠ EMPTY_CHAR
    · simp only [Lexer.skipToEolF, if_pos h]
      exact (ih l.read_char).trans (Lexer.read_char_peeked l)
    · simp only [Lexer.skipToEolF, if_neg h]

theorem Lexer.skipToEolF_lines : ∀ (n : Nat) (l : Lexer),
    (Lexer.skipToEolF n l).2.lines = l.lines := by
  intro n
  induction n with
  | zero => intro l; rfl
  | succ n ih =>
    intro l
    by_cases h : l.cur_ch ≠ '\n' ∧ l.cur_ch ≠ EMPTY_CHAR
    · simp only [Lexer.skipToEolF, if_pos h]
      exact (ih l.read_char).trans (Lexer.read_char_lines l)
    · simp only [Lexer.skipToEolF, if_neg h]

theorem Lexer.skipToEolF_rest_le : ∀ (n : Nat) (l : Lexer),
    (Lexer.skipToEolF n l).2.rest.length ≤ l.rest.length := by
  intro n
  induction n with
  | zero => intro l; exact Nat.le_refl _
  | succ n ih =>
    intro l
    by_cases h : l.cur_ch ≠ '\n' ∧ l.cur_ch ≠ EMPTY_CHAR
    · simp only [Lexer.skipToEolF, if_pos h]
      exact Nat.le_trans (ih l.read_char) (Lexer.read_char_rest_le l)
    · simp only [Lexer.skipToEolF, if_neg h]; exact Nat.le_refl _

theorem Lexer.skipToEolF_rest_lt {l : Lexer} (h1 : l.cur_ch ≠ '\n') (h2 : l.cur_ch ≠ EMPTY_CHAR)
    {c : Char} {cs : List Char} (hr : l.rest = c :: cs) (n : Nat) :
    (Lexer.skipToEolF (n + 1) l).2.rest.length < l.rest.length := by
  simp only [Lexer.skipToEolF, if_pos (And.intro h1 h2)]
  have h3 : l.read_char.rest.length = cs.length := by rw [Lexer.read_char_rest_of_cons hr]
  have h4 := Lexer.skipToEolF_rest_le n l.read_char
  rw [hr]; simp only [List.length_cons]; omega

theorem Lexer.skipToEolF_spec : ∀ (n : Nat) (l : Lexer), l.rest.length < n → l.NoNul →
    l.remainingChars = (Lexer.skipToEolF n l).1 ++ (Lexer.skipToEolF n l).2.remainingChars
    ∧ ((Lexer.skipToEolF n l).2.cur_ch = '\n' ∨ (Lexer.skipToEolF n l).2.cur_ch = EMPTY_CHAR)
    ∧ (Lexer.skipToEolF n l).2.NoNul
    ∧ (l.Good → (Lexer.skipToEolF n l).2.Good) := by
  intro n
  induction n with
  | zero => intro l h; exact absurd h (Nat.not_lt_zero _)
  | succ n ih =>
    intro l hlen hnn
    by_cases h : l.cur_ch ≠ '\n' ∧ l.cur_ch ≠ EMPTY_CHAR
    · have hstep : l.remainingChars = l.cur_ch :: l.read_char.remainingChars :=
        Lexer.remainingChars_step h.2 hnn.2
      cases hr : l.rest with
      | nil =>
        have hcur : l.read_char.cur_ch = EMPTY_CHAR := Lexer.read_char_cur_of_nil hr
        have hstop : ¬(l.read_char.cur_ch ≠ '\n' ∧ l.read_char.cur_ch ≠ EMPTY_CHAR) := by
          rw [hcur]; simp
        have hrw : Lexer.skipToEolF (n + 1) l = ([l.cur_ch], l.read_char) := by
          simp [Lexer.skipToEolF, h, Lexer.skipToEolF_not hstop]
        rw [hrw]
        exact ⟨by simpa using hstep, Or.inr hcur, hnn.read_char_noNul, fun hg => hg.read_char_good⟩
      | cons c cs =>
        have hrw : Lexer.skipToEolF (n + 1) l =
            (l.cur_ch :: (Lexer.skipToEolF n l.read_char).1, (Lexer.skipToEolF n l.read_char).2) := by
          simp [Lexer.skipToEolF, h]
        have hlen2 : l.read_char.rest.length < n := by
          rw [Lexer.read_char_rest_of_cons hr]
          rw [hr] at hlen; simpa using Nat.lt_succ_iff.mp hlen
        have ihr := ih l.read_char hlen2 hnn.read_char_noNul
        rw [hrw]
        refine ⟨?_, ihr.2.1, ihr.2.2.1, fun hg => ihr.2.2.2 hg.read_char_good⟩
        rw [hstep, ihr.1]; simp
    · have hrw : Lexer.skipToEolF (n + 1) l = ([], l) := Lexer.skipToEolF_not h _
      have hex : l.cur_ch = '\n' ∨ l.cur_ch = EMPTY_CHAR := by
        rcases not_and_or.mp h with h1 | h2
        · exact Or.inl (not_not.mp h1)
        · exact Or.inr (not_not.mp h2)
      rw [hrw]
      exact ⟨by simp, hex, hnn, fun hg => hg⟩

/-! ### The accumulate-while loops (`read_literal`, `read_number`) -/

theorem Lexer.readCharsF_not (p : Char → Bool) {l : Lexer} (h : ¬ p l.cur_ch = true) :
    ∀ n acc, Lexer.readCharsF p n acc l = (acc, l) := by
  intro n acc; cases n with
  | zero => rfl
  | succ n => simp [Lexer.readCharsF, h]

theorem Lexer.readCharsF_peeked (p : Char → Bool) : ∀ (n : Nat) (acc : String) (l : Lexer),
    (Lexer.readCharsF p n acc l).2.peeked = l.peeked := by
  intro n
  induction n with
  | zero => intro acc l; rfl
  | succ n ih =>
    intro acc l
    by_cases h : p l.cur_ch = true
    · simp [Lexer.readCharsF, h, ih, Lexer.read_char_peeked]
    · simp [Lexer.readCharsF, h]

theorem Lexer.readCharsF_data (p : Char → Bool) (hp : p EMPTY_CHAR = false) :
    ∀ (n : Nat) (acc : String) (l : Lexer), l.rest.length < n →
    (Lexer.readCharsF p n acc l).1.data = acc.data ++ l.remainingChars.takeWhile p := by
  intro n
  induction n with
  | zero => intro acc l h; exact absurd h (Nat.not_lt_zero _)
  | succ n ih =>
    intro acc l hlen
    by_cases h : p l.cur_ch = true
    · have htake := Lexer.takeWhile_remaining_step p hp h
      cases hr : l.rest with
      | nil =>
        have hstop : ¬ p l.read_char.cur_ch = true := by
          rw [Lexer.read_char_cur_of_nil hr, hp]; exact Bool.false_ne_true
        have hrem : l.read_char.remainingChars = [] := by
          unfold Lexer.remainingChars
          rw [Lexer.read_char_cur_of_nil hr]; simp
        have hrw : Lexer.readCharsF p (n + 1) acc l = (acc.push l.cur_ch, l.read_char) := by
          simp [Lexer.readCharsF, h, Lexer.readCharsF_not p hstop]
        rw [hrw, htake, hrem]
        simp [String.push]
      | cons c cs =>
        have hrw : Lexer.readCharsF p (n + 1) acc l =
            Lexer.readCharsF p n (acc.push l.cur_ch) l.read_char := by
          simp [Lexer.readCharsF, h]
        have hlen2 : l.read_char.rest.length < n := by
          rw [Lexer.read_char_rest_of_cons hr]
          rw [hr] at hlen; simpa using Nat.lt_succ_iff.mp hlen
        rw [hrw, ih _ _ hlen2, htake]
        simp [String.push]
    · have hrw : Lexer.readCharsF p (n + 1) acc l = (acc, l) := Lexer.readCharsF_not p h 
        (n + 1) acc
      have htake : l.remainingChars.takeWhile p = [] := by
        unfold Lexer.remainingChars
        by_cases hc : l.cur_ch = EMPTY_CHAR
        · simp [hc]
        · simp only [if_neg hc]
          exact List.takeWhile_cons_of_neg (by simpa using h)
      rw [hrw, htake]; simp

theorem Lexer.readCharsF_state (p : Char → Bool) (hp : p EMPTY_CHAR = false) :
    ∀ (n : Nat) (acc : String) (l : Lexer), l.rest.length < n → l.NoNul →
    (Lexer.readCharsF p n acc l).2.remainingChars = l.remainingChars.dropWhile p
    ∧ (Lexer.readCharsF p n acc l).2.NoNul
    ∧ (l.Good → (Lexer.readCharsF p n acc l).2.Good)
    ∧ (Lexer.readCharsF p n acc l).2.rest.length ≤ l.rest.length := by
  intro n
  induction n with
  | zero => intro acc l h; exact absurd h (Nat.not_lt_zero _)
  | succ n ih =>
    intro acc l hlen hnn
    by_cases h : p l.cur_ch = true
    · have hdrop := Lexer.dropWhile_remaining_step p hp h hnn.2
      cases hr : l.rest with
      | nil =>
        have hstop : ¬ p l.read_char.cur_ch = true := by
          rw [Lexer.read_char_cur_of_nil hr, hp]; exact Bool.false_ne_true
        have hrem : l.read_char.remainingChars = [] := by
          unfold Lexer.remainingChars
          rw [Lexer.read_char_cur_of_nil hr]; simp
        have hrw : Lexer.readCharsF p (n + 1) acc l = (acc.push l.cur_ch, l.read_char) := by
          simp [Lexer.readCharsF, h, Lexer.readCharsF_not p hstop]
        rw [hrw]
        refine ⟨?_, hnn.read_char_noNul, fun hg => hg.read_char_good,
          by simp [Lexer.read_char_rest_of_nil hr]⟩
        rw [hdrop, hrem]; simp
      | cons c cs =>
        have hrw : Lexer.readCharsF p (n + 1) acc l =
            Lexer.readCharsF p n (acc.push l.cur_ch) l.read_char := by
          simp [Lexer.readCharsF, h]
        have hlen2 : l.read_char.rest.length < n := by
          rw [Lexer.read_char_rest_of_cons hr]
          rw [hr] at hlen; simpa using Nat.lt_succ_iff.mp hlen
        have ihr := ih (acc.push l.cur_ch) l.read_char hlen2 hnn.read_char_noNul
        rw [hrw]
        exact ⟨by rw [ihr.1, hdrop], ihr.2.1, fun hg => ihr.2.2.1 hg.read_char_good,
          Nat.le_trans ihr.2.2.2 (by rw [Lexer.read_char_rest_of_cons hr]; simp)⟩
    · have hrw : Lexer.readCharsF p (n + 1) acc l = (acc, l) := Lexer.readCharsF_not p h 
        (n + 1) acc
      have hdrop : l.remainingChars.dropWhile p = l.remainingChars := by
        unfold Lexer.remainingChars
        by_cases hc : l.cur_ch = EMPTY_CHAR
        · simp [hc]
        · simp only [if_neg hc]
          exact List.dropWhile_cons_of_neg (by simpa using h)
      rw [hrw, hdrop]
      exact ⟨rfl, hnn, fun hg => hg, Nat.le_refl _⟩

/-! ### The string-literal loop -/

theorem Lexer.read_stringF_unterminated :
    ∀ (n : Nat) {l : Lexer}, QUOTE ∉ l.rest → ∀ acc, (Lexer.read_stringF n acc l).1 = false := by
  intro n
  induction n with
  | zero => intro l _ acc; rfl
  | succ n ih =>
    intro l h acc
    cases hr : l.rest with
    | nil =>
      have hcur : l.read_char.cur_ch = EMPTY_CHAR := Lexer.read_char_cur_of_nil hr
      simp [Lexer.read_stringF, hcur, show EMPTY_CHAR ≠ QUOTE by decide]
    | cons c cs =>
      have hcur : l.read_char.cur_ch = c := Lexer.read_char_cur_of_cons hr
      have hcq : c ≠ QUOTE := fun e => h (by rw [hr, e]; exact List.mem_cons_self _ _)
      have hcs : QUOTE ∉ l.read_char.rest := by
        rw [Lexer.read_char_rest_of_cons hr]
        exact fun hm => h (by rw [hr]; exact List.mem_cons_of_mem _ hm)
      by_cases hce : c = EMPTY_CHAR
      · simp [Lexer.read_stringF, hcur, hcq, hce, show EMPTY_CHAR ≠ QUOTE by decide]
      · simp [Lexer.read_stringF, hcur, hcq, hce, ih hcs]

theorem Lexer.read_stringF_terminated :
    ∀ (content : List Char), (∀ c ∈ content, c ≠ QUOTE ∧ c ≠ EMPTY_CHAR) →
    ∀ (tail : List Char) (acc : String) (l : Lexer) (n : Nat),
    l.rest = content ++ QUOTE :: tail → content.length < n →
    (Lexer.read_stringF n acc l).1 = true
    ∧ (Lexer.read_stringF n acc l).2.1.data = acc.data ++ content := by
  intro content
  induction content with
  | nil =>
    intro _ tail acc l n hr hn
    cases n with
    | zero => exact absurd hn (Nat.not_lt_zero _)
    | succ n =>
      have hcur : l.read_char.cur_ch = QUOTE := by
        rw [List.nil_append] at hr; exact Lexer.read_char_cur_of_cons hr
      refine ⟨by simp [Lexer.read_stringF, hcur], by simp [Lexer.read_stringF, hcur]⟩
  | cons c cs ih =>
    intro hok tail acc l n hr hn
    cases n with
    | zero => exact absurd hn (Nat.not_lt_zero _)
    | succ n =>
      have hcok := hok c (List.mem_cons_self _ _)
      have hcur : l.read_char.cur_ch = c := by
        rw [List.cons_append] at hr; exact Lexer.read_char_cur_of_cons hr
      have hrest : l.read_char.rest = cs ++ QUOTE :: tail := by
        rw [List.cons_append] at hr; exact Lexer.read_char_rest_of_cons hr
      have hrw : Lexer.read_stringF (n + 1) acc l =
          Lexer.read_stringF n (acc.push c) l.read_char := by
        simp [Lexer.read_stringF, hcur, hcok.1, hcok.2]
      have ihr := ih (fun d hd => hok d (List.mem_cons_of_mem _ hd)) tail (acc.push c)
        l.read_char n hrest (by simpa using Nat.lt_succ_iff.mp hn)
      rw [hrw]
      refine ⟨ihr.1, ?_⟩
      rw [ihr.2]
      simp [String.push]

/-! ### Branch lemmas for `Lexer::next` -/

theorem Lexer.next_scan (l : Lexer) (hp : l.peeked = none) :
    Lexer.next l = ((Lexer.nextScanF (l.rest.length + 1) l).2.1,
      (Lexer.nextScanF (l.rest.length + 1) l).2.2) := by
  simp [Lexer.next, hp]

theorem Lexer.next_bang_compound (l : Lexer) (hp : l.peeked = none)
    (h : (Lexer.skip l).cur_ch = '!') (h2 : (Lexer.skip l).peek_char = '=') :
    Lexer.next l = (Token.mk TokenType.NotEq "!=" (Lexer.skip l).read_char.location,
      (Lexer.skip l).read_char.read_char) := by
  simp only [Lexer.next, hp]
  simp only [Lexer.skip] at h h2 ⊢
  simp [Lexer.nextScanF, h, h2, EMPTY_CHAR]

theorem Lexer.next_bang_single (l : Lexer) (hp : l.peeked = none)
    (h : (Lexer.skip l).cur_ch = '!') (h2 : (Lexer.skip l).peek_char ≠ '=') :
    Lexer.next l = (Token.mk TokenType.Bang (String.singleton '!') (Lexer.skip l).location,
      (Lexer.skip l).read_char) := by
  simp only [Lexer.next, hp]
  simp only [Lexer.skip] at h h2 ⊢
  simp [Lexer.nextScanF, h, h2, EMPTY_CHAR]

theorem Lexer.next_lt_compound (l : Lexer) (hp : l.peeked = none)
    (h : (Lexer.skip l).cur_ch = '<') (h2 : (Lexer.skip l).peek_char = '=') :
    Lexer.next l = (Token.mk TokenType.Lte "<=" (Lexer.skip l).read_char.location,
      (Lexer.skip l).read_char.read_char) := by
  simp only [Lexer.next, hp]
  simp only [Lexer.skip] at h h2 ⊢
  simp [Lexer.nextScanF, h, h2, EMPTY_CHAR]

theorem Lexer.next_lt_single (l : Lexer) (hp : l.peeked = none)
    (h : (Lexer.skip l).cur_ch = '<') (h2 : (Lexer.skip l).peek_char ≠ '=') :
    Lexer.next l = (Token.mk TokenType.Lt (String.singleton '<') (Lexer.skip l).location,
      (Lexer.skip l).read_char) := by
  simp only [Lexer.next, hp]
  simp only [Lexer.skip] at h h2 ⊢
  simp [Lexer.nextScanF, h, h2, EMPTY_CHAR]

theorem Lexer.next_gt_compound (l : Lexer) (hp : l.peeked = none)
    (h : (Lexer.skip l).cur_ch = '>') (h2 : (Lexer.skip l).peek_char = '=') :
    Lexer.next l = (Token.mk TokenType.Gte ">=" (Lexer.skip l).read_char.location,
      (Lexer.skip l).read_char.read_char) := by
  simp only [Lexer.next, hp]
  simp only [Lexer.skip] at h h2 ⊢
  simp [Lexer.nextScanF, h, h2, EMPTY_CHAR]

theorem Lexer.next_gt_single (l : Lexer) (hp : l.peeked = none)
    (h : (Lexer.skip l).cur_ch = '>') (h2 : (Lexer.skip l).peek_char ≠ '=') :
    Lexer.next l = (Token.mk TokenType.Gt (String.singleton '>') (Lexer.skip l).location,
      (Lexer.skip l).read_char) := by
  simp only [Lexer.next, hp]
  simp only [Lexer.skip] at h h2 ⊢
  simp [Lexer.nextScanF, h, h2, EMPTY_CHAR]

theorem not_alpha_of_digit {c : Char} (h : c.isDigit = true) : ¬ c.isAlpha = true := by
  intro h2
  simp [Char.isDigit, Char.isAlpha, Char.isUpper, Char.isLower, Char.le_def] at h h2
  have hd1 : (48 : UInt32).toNat ≤ c.val.toNat := h.1
  have hd2 : c.val.toNat ≤ (57 : UInt32).toNat := h.2
  have e1 : (48 : UInt32).toNat = 48 := rfl
  have e2 : (57 : UInt32).toNat = 57 := rfl
  have e3 : (65 : UInt32).toNat = 65 := rfl
  have e4 : (97 : UInt32).toNat = 97 := rfl
  rcases h2 with ⟨h3, h4⟩ | ⟨h3, h4⟩
  · have ha : (65 : UInt32).toNat ≤ c.val.toNat := h3
    omega
  · have ha : (97 : UInt32).toNat ≤ c.val.toNat := h3
    omega

theorem Lexer.next_single_char (l : Lexer) (hp : l.peeked = none)
    (h : (Lexer.skip l).cur_ch ∈
      ['=', ';', '.', '(', ')', ',', '+', LBRACE_CHAR, '[', ']', RBRACE_CHAR, '*', '/', '?']) :
    ((Lexer.next l).1).location = (Lexer.skip l).location
    ∧ (Lexer.next l).2 = (Lexer.skip l).read_char := by
  simp only [Lexer.next, hp]
  simp only [Lexer.skip] at h ⊢
  simp only [List.mem_cons, List.not_mem_nil, or_false] at h
  rcases h with h | h | h | h | h | h | h | h | h | h | h | h | h | h <;>
    simp [Lexer.nextScanF, h, EMPTY_CHAR, QUOTE, LBRACE_CHAR, RBRACE_CHAR]

theorem Lexer.next_alpha (l : Lexer) (hp : l.peeked = none)
    (h : (Lexer.skip l).cur_ch.isAlpha = true) :
    Lexer.next l =
      (Token.mk
        (lookup_ident (Lexer.read_literalF ((Lexer.skip l).rest.length + 1) "" (Lexer.skip l)).1)
        (Lexer.read_literalF ((Lexer.skip l).rest.length + 1) "" (Lexer.skip l)).1
        (Lexer.read_literalF ((Lexer.skip l).rest.length + 1) "" (Lexer.skip l)).2.location,
       (Lexer.read_literalF ((Lexer.skip l).rest.length + 1) "" (Lexer.skip l)).2) := by
  simp only [Lexer.next, hp]
  simp only [Lexer.skip] at h ⊢
  simp only [Lexer.nextScanF]
  rw [if_neg (fun e => absurd (e ▸ h) (by decide)),
      if_neg (fun e => absurd (e ▸ h) (by decide)),
      if_neg (fun e => absurd (e ▸ h) (by decide)),
      if_neg (fun e => absurd (e ▸ h) (by decide)),
      if_neg (fun e => absurd (e ▸ h) (by decide)),
      if_neg (fun e => absurd (e ▸ h) (by decide)),
      if_neg (fun e => absurd (e ▸ h) (by decide)),
      if_neg (fun e => absurd (e ▸ h) (by decide)),
      if_neg (fun e => absurd (e ▸ h) (by decide)),
      if_neg (fun e => absurd (e ▸ h) (by decide)),
      if_neg (fun e => absurd (e ▸ h) (by decide)),
      if_neg (fun e => absurd (e ▸ h) (by decide)),
      if_neg (fun e => absurd (e ▸ h) (by decide)),
      if_neg (fun e => absurd (e ▸ h) (by decide)),
      if_neg (fun e => absurd (e ▸ h) (by decide)),
      if_neg (fun e => absurd (e ▸ h) (by decide)),
      if_neg (fun e => absurd (e ▸ h) (by decide)),
      if_neg (fun e => absurd (e ▸ h) (by decide)),
      if_neg (fun e => absurd (e ▸ h) (by decide)),
      if_neg (fun e => absurd (e ▸ h) (by decide)),
      if_neg (fun e => absurd (e ▸ h) (by decide)),
      if_pos h]

theorem Lexer.next_digit (l : Lexer) (hp : l.peeked = none)
    (h : (Lexer.skip l).cur_ch.isDigit = true) :
    Lexer.next l =
      (Token.mk
        (if (Lexer.read_numberF ((Lexer.skip l).rest.length + 1) "" (Lexer.skip l)).1.data.contains '.'
          then TokenType.Float else TokenType.Int)
        (Lexer.read_numberF ((Lexer.skip l).rest.length + 1) "" (Lexer.skip l)).1
        (Lexer.read_numberF ((Lexer.skip l).rest.length + 1) "" (Lexer.skip l)).2.location,
       (Lexer.read_numberF ((Lexer.skip l).rest.length + 1) "" (Lexer.skip l)).2) := by
  simp only [Lexer.next, hp]
  simp only [Lexer.skip] at h ⊢
  simp only [Lexer.nextScanF]
  rw [if_neg (fun e => absurd (e ▸ h) (by decide)),
      if_neg (fun e => absurd (e ▸ h) (by decide)),
      if_neg (fun e => absurd (e ▸ h) (by decide)),
      if_neg (fun e => absurd (e ▸ h) (by decide)),
      if_neg (fun e => absurd (e ▸ h) (by decide)),
      if_neg (fun e => absurd (e ▸ h) (by decide)),
      if_neg (fun e => absurd (e ▸ h) (by decide)),
      if_neg (fun e => absurd (e ▸ h) (by decide)),
      if_neg (fun e => absurd (e ▸ h) (by decide)),
      if_neg (fun e => absurd (e ▸ h) (by decide)),
      if_neg (fun e => absurd (e ▸ h) (by decide)),
      if_neg (fun e => absurd (e ▸ h) (by decide)),
      if_neg (fun e => absurd (e ▸ h) (by decide)),
      if_neg (fun e => absurd (e ▸ h) (by decide)),
      if_neg (fun e => absurd (e ▸ h) (by decide)),
      if_neg (fun e => absurd (e ▸ h) (by decide)),
      if_neg (fun e => absurd (e ▸ h) (by decide)),
      if_neg (fun e => absurd (e ▸ h) (by decide)),
      if_neg (fun e => absurd (e ▸ h) (by decide)),
      if_neg (fun e => absurd (e ▸ h) (by decide)),
      if_neg (fun e => absurd (e ▸ h) (by decide)),
      if_neg (not_alpha_of_digit h),
      if_pos h]

theorem Lexer.next_quote (l : Lexer) (hp : l.peeked = none)
    (h : (Lexer.skip l).cur_ch = QUOTE) :
    Lexer.next l =
      (if (Lexer.read_stringF ((Lexer.skip l).rest.length + 1) "" (Lexer.skip l)).1 then
        (Token.mk TokenType.String
          (Lexer.read_stringF ((Lexer.skip l).rest.length + 1) "" (Lexer.skip l)).2.1
          (Lexer.read_stringF ((Lexer.skip l).rest.length + 1) "" (Lexer.skip l)).2.2.location,
         (Lexer.read_stringF ((Lexer.skip l).rest.length + 1) "" (Lexer.skip l)).2.2.read_char)
      else
        (Token.mk TokenType.ILLIGAL (String.singleton QUOTE)
          (Lexer.read_stringF ((Lexer.skip l).rest.length + 1) "" (Lexer.skip l)).2.2.location,
         (Lexer.read_stringF ((Lexer.skip l).rest.length + 1) "" (Lexer.skip l)).2.2)) := by
  simp only [Lexer.next, hp]
  simp only [Lexer.skip] at h ⊢
  simp only [Lexer.nextScanF]
  rw [if_neg (fun e => absurd (h ▸ e) (by decide)),
      if_neg (fun e => absurd (h ▸ e) (by decide)),
      if_neg (fun e => absurd (h ▸ e) (by decide)),
      if_neg (fun e => absurd (h ▸ e) (by decide)),
      if_neg (fun e => absurd (h ▸ e) (by decide)),
      if_neg (fun e => absurd (h ▸ e) (by decide)),
      if_neg (fun e => absurd (h ▸ e) (by decide)),
      if_neg (fun e => absurd (h ▸ e) (by decide)),
      if_neg (fun e => absurd (h ▸ e) (by decide)),
      if_neg (fun e => absurd (h ▸ e) (by decide)),
      if_neg (fun e => absurd (h ▸ e) (by decide)),
      if_neg (fun e => absurd (h ▸ e) (by decide)),
      if_neg (fun e => absurd (h ▸ e) (by decide)),
      if_neg (fun e => absurd (h ▸ e) (by decide)),
      if_neg (fun e => absurd (h ▸ e) (by decide)),
      if_neg (fun e => absurd (h ▸ e) (by decide)),
      if_neg (fun e => absurd (h ▸ e) (by decide)),
      if_neg (fun e => absurd (h ▸ e) (by decide)),
      if_neg (fun e => absurd (h ▸ e) (by decide)),
      if_neg (fun e => absurd (h ▸ e) (by decide)),
      if_pos h]
  rw [h]
  by_cases hb : (Lexer.read_stringF ((Lexer.skipF (l.rest.length + 1) l).2.rest.length + 1) ""
      (Lexer.skipF (l.rest.length + 1) l).2).1 = true <;> simp [hb]

/-! ### Claim C4 -/

/-- C4: for every tokenizer state, calling `peek()` again after a `peek()`
returns the identical Token and leaves the state unchanged (so any number of
repeated peeks agree), and a `next()` immediately following a `peek()` returns
exactly the Token that `peek()` returned. -/
theorem c4_peek_consistency (l : Lexer) :
    (Lexer.peek (Lexer.peek l).2).1 = (Lexer.peek l).1
    ∧ (Lexer.peek (Lexer.peek l).2).2 = (Lexer.peek l).2
    ∧ (Lexer.next (Lexer.peek l).2).1 = (Lexer.peek l).1 := by
  cases hp : l.peeked with
  | some t => simp [Lexer.peek, Lexer.next, hp]
  | none => simp [Lexer.peek, Lexer.next, hp]

/-! ### Claim C5 -/

/-- C5: when the current character (after skipping) is `!`, `<` or `>`,
`next()` inspects the following character: if it is `=` both characters are
consumed (the cursor ends two `read_char`s further) and the compound token
(`!=`, `<=`, `>=`) is emitted; otherwise only the single character is consumed
and the single-character token (`!`, `<`, `>`) is emitted.  Scanning
`"=!=<=>=::"` yields Eq, NotEq, Lte, Gte, DoubleColon, then end-of-input. -/
theorem c5_two_char_disambiguation :
    (∀ l : Lexer, l.peeked = none → (Lexer.skip l).cur_ch = '!' →
      ((Lexer.skip l).peek_char = '=' →
        Lexer.next l = (Token.mk TokenType.NotEq "!=" (Lexer.skip l).read_char.location,
          (Lexer.skip l).read_char.read_char))
      ∧ ((Lexer.skip l).peek_char ≠ '=' →
        Lexer.next l = (Token.mk TokenType.Bang (String.singleton '!') (Lexer.skip l).location,
          (Lexer.skip l).read_char)))
    ∧ (∀ l : Lexer, l.peeked = none → (Lexer.skip l).cur_ch = '<' →
      ((Lexer.skip l).peek_char = '=' →
        Lexer.next l = (Token.mk TokenType.Lte "<=" (Lexer.skip l).read_char.location,
          (Lexer.skip l).read_char.read_char))
      ∧ ((Lexer.skip l).peek_char ≠ '=' →
        Lexer.next l = (Token.mk TokenType.Lt (String.singleton '<') (Lexer.skip l).location,
          (Lexer.skip l).read_char)))
    ∧ (∀ l : Lexer, l.peeked = none → (Lexer.skip l).cur_ch = '>' →
      ((Lexer.skip l).peek_char = '=' →
        Lexer.next l = (Token.mk TokenType.Gte ">=" (Lexer.skip l).read_char.location,
          (Lexer.skip l).read_char.read_char))
      ∧ ((Lexer.skip l).peek_char ≠ '=' →
        Lexer.next l = (Token.mk TokenType.Gt (String.singleton '>') (Lexer.skip l).location,
          (Lexer.skip l).read_char)))
    ∧ ((Lexer.new "=!=<=>=::").tokensF 7).map (fun t => (t.token_type, t.literal)) =
        [(TokenType.Eq, "="), (TokenType.NotEq, "!="), (TokenType.Lte, "<="),
         (TokenType.Gte, ">="), (TokenType.DoubleColon, "::"), (TokenType.EOF, "")] := by
  refine ⟨fun l hp h => ⟨fun h2 => Lexer.next_bang_compound l hp h h2,
      fun h2 => Lexer.next_bang_single l hp h h2⟩,
    fun l hp h => ⟨fun h2 => Lexer.next_lt_compound l hp h h2,
      fun h2 => Lexer.next_lt_single l hp h h2⟩,
    fun l hp h => ⟨fun h2 => Lexer.next_gt_compound l hp h h2,
      fun h2 => Lexer.next_gt_single l hp h h2⟩,
    by decide⟩

/-- C5 witness: the two-character rule of `c5_two_char_disambiguation`
instantiated at the inputs `"!="` (compound) and `"!a"` (single). -/
theorem c5_two_char_disambiguation_witness :
    Lexer.next (Lexer.new "!=") = (Token.mk TokenType.NotEq "!="
      (Lexer.skip (Lexer.new "!=")).read_char.location,
      (Lexer.skip (Lexer.new "!=")).read_char.read_char)
    ∧ Lexer.next (Lexer.new "!a") = (Token.mk TokenType.Bang (String.singleton '!')
      (Lexer.skip (Lexer.new "!a")).location, (Lexer.skip (Lexer.new "!a")).read_char) :=
  ⟨(c5_two_char_disambiguation.1 (Lexer.new "!=") rfl (by decide)).1 (by decide),
   (c5_two_char_disambiguation.1 (Lexer.new "!a") rfl (by decide)).2 (by decide)⟩

/-! ### Claim C6 -/

/-- C6 (the code contradicts the claim): on input `":a"` the `:` arm of
`next()` advances once inside the arm and once more at the trailing
`read_char`, so after the Colon token is emitted the following `a` has been
consumed and lost — the next call returns end-of-input instead of scanning
`a` as the start of the next token. -/
theorem c6_colon_failing_input :
    ((Lexer.new ":a").tokensF 3).map (fun t => (t.token_type, t.literal)) =
      [(TokenType.Colon, ":"), (TokenType.EOF, "")]
    ∧ (Lexer.next (Lexer.next (Lexer.new ":a")).2).1.token_type = TokenType.EOF := by
  decide

/-! ### Claim C2 -/

/-- C2 counterexample: on input `"ab"` the identifier token `"ab"` starts at
column 0 (the initial cursor position), but its `location` carries column 1 —
the position where `read_literal` stopped — so a token's location is not in
general the position of its first character. -/
theorem c2_location_counterexample :
    (Lexer.new "ab").location.column = 0
    ∧ (Lexer.next (Lexer.new "ab")).1.literal = "ab"
    ∧ (Lexer.next (Lexer.new "ab")).1.location.column = 1
    ∧ (Lexer.next (Lexer.new "ab")).1.location.column ≠ 0 := by decide

/-- C2 (amended): a Token's `location` is the cursor position at the moment
the Token is constructed — for the unconditional single-character punctuation
arms this is the first character's position (captured before the trailing
advance), but for identifier/keyword and number tokens it is the position at
which their scan stopped (the state `next()` returns), and for a compound
operator such as `!=` it is the second character's position — not, in general,
the position of the token's first character. -/
theorem c2_location :
    (∀ l : Lexer, l.peeked = none → (Lexer.skip l).cur_ch ∈
        ['=', ';', '.', '(', ')', ',', '+', LBRACE_CHAR, '[', ']', RBRACE_CHAR, '*', '/', '?'] →
      ((Lexer.next l).1).location = (Lexer.skip l).location)
    ∧ (∀ l : Lexer, l.peeked = none →
        ((Lexer.skip l).cur_ch.isAlpha = true ∨ (Lexer.skip l).cur_ch.isDigit = true) →
      ((Lexer.next l).1).location = ((Lexer.next l).2).location)
    ∧ (∀ l : Lexer, l.peeked = none → (Lexer.skip l).cur_ch = '!' →
        (Lexer.skip l).peek_char = '=' →
      ((Lexer.next l).1).location = (Lexer.skip l).read_char.location) := by
  refine ⟨fun l hp h => (Lexer.next_single_char l hp h).1, fun l hp h => ?_,
    fun l hp h h2 => by rw [Lexer.next_bang_compound l hp h h2]⟩
  rcases h with h | h
  · rw [Lexer.next_alpha l hp h]
  · rw [Lexer.next_digit l hp h]

/-- C2 witness: `c2_location` instantiated at `"="` (single character, location
is the first character's position), `"ab"` (identifier, location is the scan's
final position) and `"!="` (compound, location is the second character's
position). -/
theorem c2_location_witness :
    (Lexer.next (Lexer.new "=")).1.location = (Lexer.skip (Lexer.new "=")).location
    ∧ (Lexer.next (Lexer.new "ab")).1.location = (Lexer.next (Lexer.new "ab")).2.location
    ∧ (Lexer.next (Lexer.new "!=")).1.location = (Lexer.skip (Lexer.new "!=")).read_char.location :=
  ⟨c2_location.1 (Lexer.new "=") rfl (by decide),
   c2_location.2.1 (Lexer.new "ab") rfl (Or.inl (by decide)),
   c2_location.2.2 (Lexer.new "!=") rfl (by decide) (by decide)⟩

/-! ### Claim C7 -/

/-- C7 counterexample: scanning `"'abc"` (no closing quote) does yield a single
illegal Token carrying the opening quote as its literal, but the token's
location is column 3 — the position where end-of-input was reached — not the
string's start location (column 0) as the claim states. -/
theorem c7_unterminated_string_counterexample :
    (Lexer.next (Lexer.new (String.mk [QUOTE, 'a', 'b', 'c']))).1.token_type = TokenType.ILLIGAL
    ∧ (Lexer.next (Lexer.new (String.mk [QUOTE, 'a', 'b', 'c']))).1.literal = String.singleton QUOTE
    ∧ (Lexer.next (Lexer.new (String.mk [QUOTE, 'a', 'b', 'c']))).1.location.column = 3
    ∧ (Lexer.next (Lexer.new (String.mk [QUOTE, 'a', 'b', 'c']))).1.location.column ≠ 0 := by
  decide

/-- C7 (amended): when a quote is opened and no closing quote occurs in the
remaining input, `next()` returns a single illegal Token — not a String token
and not a crash — carrying the opening-quote character as its literal and the
lexer's location at the point the scan stopped (end-of-input), which is the
location of the state `next()` returns, not the string's start. -/
theorem c7_unterminated_string (l : Lexer) (hp : l.peeked = none)
    (h : (Lexer.skip l).cur_ch = QUOTE) (h2 : QUOTE ∉ (Lexer.skip l).rest) :
    (Lexer.next l).1.token_type = TokenType.ILLIGAL
    ∧ (Lexer.next l).1.literal = String.singleton QUOTE
    ∧ (Lexer.next l).1.location = (Lexer.next l).2.location := by
  have hfalse : (Lexer.read_stringF ((Lexer.skip l).rest.length + 1) "" (Lexer.skip l)).1
      = false := Lexer.read_stringF_unterminated _ h2 ""
  rw [Lexer.next_quote l hp h, if_neg (by rw [hfalse]; exact Bool.false_ne_true)]
  exact ⟨rfl, rfl, rfl⟩

/-- C7 witness: `c7_unterminated_string` instantiated at `"'abc"`. -/
theorem c7_unterminated_string_witness :
    QUOTE ∉ (Lexer.skip (Lexer.new (String.mk [QUOTE, 'a', 'b', 'c']))).rest
    ∧ (Lexer.next (Lexer.new (String.mk [QUOTE, 'a', 'b', 'c']))).1.token_type
        = TokenType.ILLIGAL
    ∧ (Lexer.next (Lexer.new (String.mk [QUOTE, 'a', 'b', 'c']))).1.literal
        = String.singleton QUOTE :=
  ⟨by decide,
   (c7_unterminated_string (Lexer.new (String.mk [QUOTE, 'a', 'b', 'c'])) rfl
     (by decide) (by decide)).1,
   (c7_unterminated_string (Lexer.new (String.mk [QUOTE, 'a', 'b', 'c'])) rfl
     (by decide) (by decide)).2.1⟩

/-! ### Claim C8 -/

/-- C8: when the current character (after skipping) is an ASCII digit, `next()`
consumes the maximal run of digits and `.` characters (the literal is exactly
the `takeWhile` of the remaining characters under `numChar`) and emits a Float
token when the accumulated text contains a `.` and an Int token otherwise; in
particular `"1.23"` scans to a single Float token `"1.23"` followed by
end-of-input, and `"1.2.3"` is accepted as a single Float token. -/
theorem c8_number_scan :
    (∀ l : Lexer, l.peeked = none → (Lexer.skip l).cur_ch.isDigit = true →
      (Lexer.next l).1.literal.data = (Lexer.skip l).remainingChars.takeWhile numChar
      ∧ (Lexer.next l).1.token_type =
          (if (Lexer.next l).1.literal.data.contains '.' then TokenType.Float else TokenType.Int))
    ∧ ((Lexer.new "1.23").tokensF 2).map (fun t => (t.token_type, t.literal)) =
        [(TokenType.Float, "1.23"), (TokenType.EOF, "")]
    ∧ ((Lexer.new "1.2.3").tokensF 2).map (fun t => (t.token_type, t.literal)) =
        [(TokenType.Float, "1.2.3"), (TokenType.EOF, "")] := by
  refine ⟨fun l hp h => ?_, by decide, by decide⟩
  have hd := Lexer.readCharsF_data numChar (by decide) ((Lexer.skip l).rest.length + 1) ""
    (Lexer.skip l) (Nat.lt_succ_self _)
  rw [Lexer.next_digit l hp h]
  refine ⟨by simpa [Lexer.read_numberF] using hd, rfl⟩

/-- C8 witness: `c8_number_scan` instantiated at `"1.23"`. -/
theorem c8_number_scan_witness :
    (Lexer.next (Lexer.new "1.23")).1.literal.data =
      (Lexer.skip (Lexer.new "1.23")).remainingChars.takeWhile numChar
    ∧ (Lexer.next (Lexer.new "1.23")).1.token_type =
        (if (Lexer.next (Lexer.new "1.23")).1.literal.data.contains '.'
          then TokenType.Float else TokenType.Int) :=
  ⟨(c8_number_scan.1 (Lexer.new "1.23") rfl (by decide)).1,
   (c8_number_scan.1 (Lexer.new "1.23") rfl (by decide)).2⟩

/-! ### Claim C10 -/

/-- C10 counterexample: the properly terminated literal consisting of a quote,
a NUL character and a quote is not scanned as a String token at all — the NUL
is indistinguishable from the `EMPTY_CHAR` sentinel, so the string loop takes
its end-of-input exit and an illegal token is emitted instead. -/
theorem c10_string_literal_counterexample :
    (Lexer.next (Lexer.new (String.mk [QUOTE, EMPTY_CHAR, QUOTE]))).1.token_type
        = TokenType.ILLIGAL
    ∧ (Lexer.next (Lexer.new (String.mk [QUOTE, EMPTY_CHAR, QUOTE]))).1.token_type
        ≠ TokenType.String := by
  decide

/-- C10 (amended): for every properly terminated single-quoted literal whose
content contains neither a quote nor the NUL character, the String token
emitted by `next()` has as its text exactly the characters between the opening
and closing quotes, both quotes excluded; in particular `''` yields a String
token with empty text followed by end-of-input. -/
theorem c10_string_literal :
    (∀ (l : Lexer) (content tail : List Char), l.peeked = none →
      (Lexer.skip l).cur_ch = QUOTE →
      (Lexer.skip l).rest = content ++ QUOTE :: tail →
      (∀ c ∈ content, c ≠ QUOTE ∧ c ≠ EMPTY_CHAR) →
      (Lexer.next l).1.token_type = TokenType.String
      ∧ (Lexer.next l).1.literal.data = content)
    ∧ ((Lexer.new (String.mk [QUOTE, QUOTE])).tokensF 2).map
        (fun t => (t.token_type, t.literal)) =
      [(TokenType.String, ""), (TokenType.EOF, "")] := by
  refine ⟨fun l content tail hp h hr hok => ?_, by decide⟩
  have ht := Lexer.read_stringF_terminated content hok tail "" (Lexer.skip l)
    ((Lexer.skip l).rest.length + 1) hr
    (by rw [hr]; simp only [List.length_append, List.length_cons]; omega)
  rw [Lexer.next_quote l hp h, if_pos ht.1]
  exact ⟨rfl, by simpa using ht.2⟩

/-- C10 witness: `c10_string_literal` instantiated at the input `'ab'`. -/
theorem c10_string_literal_witness :
    (Lexer.next (Lexer.new (String.mk [QUOTE, 'a', 'b', QUOTE]))).1.token_type
        = TokenType.String
    ∧ (Lexer.next (Lexer.new (String.mk [QUOTE, 'a', 'b', QUOTE]))).1.literal.data
        = ['a', 'b'] :=
  ⟨(c10_string_literal.1 (Lexer.new (String.mk [QUOTE, 'a', 'b', QUOTE])) ['a', 'b'] []
      rfl (by decide) (by decide) (by decide)).1,
   (c10_string_literal.1 (Lexer.new (String.mk [QUOTE, 'a', 'b', QUOTE])) ['a', 'b'] []
      rfl (by decide) (by decide) (by decide)).2⟩

/-! ### Claim C9: recursion depth of comment skipping -/

theorem commChars_length (k : Nat) : (commChars k).length = 3 * k + 1 := by
  induction k with
  | zero => rfl
  | succ j ih => simp [commChars, ih]; omega

theorem ws_nl : rustIsWhitespace '\n' = true := by decide

theorem ws_x : rustIsWhitespace 'x' = false := by decide

theorem ws_dash : rustIsWhitespace '-' = false := by decide

theorem depth_shape2 : ∀ (k m : Nat) (pk : Option Token) (lns : List String) (cl cp : Nat),
    k < m →
    Lexer.nextScanDepthF m (Lexer.mk (commChars k) pk lns cl cp '\n') = k + 1 := by
  intro k
  induction k with
  | zero =>
    intro m pk lns cl cp hm
    cases m with
    | zero => omega
    | succ m =>
      simp [Lexer.nextScanDepthF, commChars, Lexer.skipF, Lexer.read_char, Lexer.peek_char,
        ws_nl, ws_x, EMPTY_CHAR]
  | succ j ih =>
    intro m pk lns cl cp hm
    cases m with
    | zero => omega
    | succ m =>
      simp only [Lexer.nextScanDepthF, commChars]
      simp only [List.length_cons]
      simp [Lexer.skipF, Lexer.read_char, Lexer.peek_char, Lexer.skipToEolF,
        ws_nl, ws_dash, EMPTY_CHAR]
      rw [ih m pk lns (cl + 1) (cp + 1 + 1 + 1) (by omega)]
      omega

theorem nextScanDepthF_comment_step (m : Nat) (l : Lexer)
    (hw : rustIsWhitespace l.cur_ch = false) (h1 : l.cur_ch = '-') (h2 : l.peek_char = '-') :
    Lexer.nextScanDepthF (m + 1) l =
      1 + Lexer.nextScanDepthF m (Lexer.skipToEolF (l.rest.length + 1) l).2 := by
  simp only [Lexer.nextScanDepthF]
  rw [Lexer.skipF_not_ws (by rw [hw]; exact Bool.false_ne_true)]
  simp [h1, h2]

theorem depth_comm : ∀ n : Nat, Lexer.nextDepth (Lexer.new (commInput n)) = n + 1 := by
  intro n
  cases n with
  | zero => decide
  | succ k =>
    have hnew : Lexer.new (commInput (k + 1)) =
        Lexer.mk ('-' :: '\n' :: commChars k) none (rustLines (commInput (k + 1))) 0 0 '-' :=
      rfl
    show Lexer.nextDepth (Lexer.new (commInput (k + 1))) = k + 1 + 1
    rw [hnew]
    show Lexer.nextScanDepthF (('-' :: '\n' :: commChars k).length + 1)
        (Lexer.mk ('-' :: '\n' :: commChars k) none (rustLines (commInput (k + 1))) 0 0 '-')
      = k + 1 + 1
    simp only [List.length_cons]
    rw [nextScanDepthF_comment_step ((commChars k).length + 1 + 1)
      (Lexer.mk ('-' :: '\n' :: commChars k) none (rustLines (commInput (k + 1))) 0 0 '-')
      ws_dash rfl rfl]
    simp only [List.length_cons]
    simp only [Lexer.skipToEolF, Lexer.read_char, EMPTY_CHAR]
    have hc : ¬('-' : Char) = '\n' ∧ ¬('-' : Char) = Char.ofNat 0 := by decide
    rw [if_pos hc, if_pos hc]
    simp only [if_neg (show ¬(('\n' : Char) ≠ '\n' ∧ ('\n' : Char) ≠ Char.ofNat 0) by simp)]
    norm_num
    simp only [if_neg (show ¬('-' : Char) = '\n' by decide), Nat.zero_add]
    rw [depth_shape2 k ((commChars k).length + 1 + 1) none (rustLines (commInput (k + 1))) 1 2
      (by have := commChars_length k; omega)]
    omega

/-- C9 (amended): line-comment skipping is performed by the `-` arm ending in a
recursive `return self.next()`, not by an iterative loop: each consecutive
comment line adds one nested `next()` invocation, so on an input of `n` comment
lines followed by a token the call depth is exactly `n + 1`, growing linearly
with the number of consecutive comment lines rather than staying bounded. -/
theorem c9_comment_recursion (n : Nat) :
    Lexer.nextDepth (Lexer.new (commInput n)) = n + 1 :=
  depth_comm n

/-- C9 counterexample: three consecutive comment lines already make `next()`
re-enter itself three times (call depth 4, where an iterative implementation
would stay at depth 1), and no uniform bound on the call depth exists. -/
theorem c9_comment_recursion_counterexample :
    Lexer.nextDepth (Lexer.new (commInput 3)) = 4
    ∧ Lexer.nextDepth (Lexer.new (commInput 3)) ≠ 1
    ∧ ¬ (∃ B : Nat, ∀ n : Nat, Lexer.nextDepth (Lexer.new (commInput n)) ≤ B) := by
  refine ⟨by decide, by decide, fun h => ?_⟩
  obtain ⟨B, hB⟩ := h
  have h1 := hB (B + 1)
  rw [depth_comm (B + 1)] at h1
  omega

/-! ### The master scan lemma (used for the EOF-stability and reconstruction
claims) -/

theorem lookup_ident_ne_eof (s : String) : lookup_ident s ≠ TokenType.EOF := by
  unfold lookup_ident; split <;> simp

theorem identChar_of_alpha {c : Char} (h : c.isAlpha = true) : identChar c = true := by
  simp [identChar, h]

theorem numChar_of_digit {c : Char} (h : c.isDigit = true) : numChar c = true := by
  simp [numChar, h]

theorem Lexer.read_char_location_of_nil {l : Lexer} (hr : l.rest = []) :
    l.read_char.location = l.location := by
  unfold Lexer.read_char Lexer.location; rw [hr]

theorem Lexer.remainingChars_of_empty {l : Lexer} (h : l.cur_ch = EMPTY_CHAR) :
    l.remainingChars = [] := by
  simp [Lexer.remainingChars, h]

theorem Lexer.remainingChars_of_ne {l : Lexer} (h : l.cur_ch ≠ EMPTY_CHAR) :
    l.remainingChars = l.cur_ch :: l.rest := by
  simp [Lexer.remainingChars, h]

/-- The two conclusions the master scan lemma establishes for one `next()`
scan: the EOF-characterization (for any NUL-free state) and, for `Good`
states, the split of the remaining characters into skipped characters, the
token's literal and the remainder. -/
def Lexer.ScanSpec (l : Lexer) (r : List Char × Token × Lexer) : Prop :=
  ((r.2.1.token_type = TokenType.EOF →
      r.2.1 = Token.mk TokenType.EOF "" r.2.2.location
      ∧ r.2.2.cur_ch = EMPTY_CHAR
      ∧ r.2.2.rest = []
      ∧ r.2.2.peeked = l.peeked)
  ∧ (l.Good →
      l.remainingChars = r.1 ++ r.2.1.literal.data ++ r.2.2.remainingChars
      ∧ r.2.2.Good
      ∧ (r.2.1.token_type = TokenType.EOF → r.2.2.remainingChars = [])
      ∧ (r.2.1.token_type ≠ TokenType.EOF →
          r.2.2.remainingChars.length < l.remainingChars.length)))

/-- Helper discharging `ScanSpec` for every arm that emits a one-character
token built from the (skipped-to) current character and ends with the trailing
`read_char`. -/
theorem Lexer.scanSpec_single {n : Nat} {l : Lexer} {c : Char} {tt : TokenType}
    {lit : String} {loc : Location}
    (_hlen : l.rest.length < n) (hnn : l.NoNul)
    (heq : Lexer.nextScanF n l =
      ((Lexer.skipF (l.rest.length + 1) l).1,
       Token.mk tt lit loc,
       (Lexer.skipF (l.rest.length + 1) l).2.read_char))
    (hc : (Lexer.skipF (l.rest.length + 1) l).2.cur_ch = c)
    (hlit : lit.data = [c])
    (hcE : c ≠ EMPTY_CHAR)
    (htt : tt ≠ TokenType.EOF) :
    Lexer.ScanSpec l (Lexer.nextScanF n l) := by
  have hsk := Lexer.skipF_spec (l.rest.length + 1) l (Nat.lt_succ_self _) hnn
  have hnn1 : (Lexer.skipF (l.rest.length + 1) l).2.NoNul := hsk.2.2.1
  have hstep : (Lexer.skipF (l.rest.length + 1) l).2.remainingChars =
      c :: (Lexer.skipF (l.rest.length + 1) l).2.read_char.remainingChars := by
    rw [← hc]
    exact Lexer.remainingChars_step (hc ▸ hcE) hnn1.2
  rw [Lexer.ScanSpec, heq]
  constructor
  · intro h
    exact absurd h htt
  · intro hg
    have hg1 := hsk.2.2.2 hg
    refine ⟨?_, hg1.read_char_good, fun h => absurd h htt, fun _ => ?_⟩
    · rw [hsk.1, hstep, hlit]
      simp
    · have h2 := congrArg List.length (hsk.1)
      have h3 := congrArg List.length hstep
      simp only [List.length_append, List.length_cons] at h2 h3
      show (Lexer.skipF (l.rest.length + 1) l).2.read_char.remainingChars.length <
        l.remainingChars.length
      omega

/-- Helper discharging `ScanSpec` for the compound-operator arms (`!=`, `<=`,
`>=`): two characters consumed, then the trailing `read_char`. -/
theorem Lexer.scanSpec_compound {n : Nat} {l : Lexer} {c : Char} {tt : TokenType}
    {lit : String} {loc : Location}
    (_hlen : l.rest.length < n) (hnn : l.NoNul)
    (heq : Lexer.nextScanF n l =
      ((Lexer.skipF (l.rest.length + 1) l).1,
       Token.mk tt lit loc,
       (Lexer.skipF (l.rest.length + 1) l).2.read_char.read_char))
    (hc : (Lexer.skipF (l.rest.length + 1) l).2.cur_ch = c)
    (hpeek : (Lexer.skipF (l.rest.length + 1) l).2.peek_char = '=')
    (hlit : lit.data = [c, '='])
    (hcE : c ≠ EMPTY_CHAR)
    (htt : tt ≠ TokenType.EOF) :
    Lexer.ScanSpec l (Lexer.nextScanF n l) := by
  have hsk := Lexer.skipF_spec (l.rest.length + 1) l (Nat.lt_succ_self _) hnn
  have hnn1 : (Lexer.skipF (l.rest.length + 1) l).2.NoNul := hsk.2.2.1
  have hrest1 : ∃ cs, (Lexer.skipF (l.rest.length + 1) l).2.rest = '=' :: cs := by
    unfold Lexer.peek_char at hpeek
    cases hr : (Lexer.skipF (l.rest.length + 1) l).2.rest with
    | nil => rw [hr] at hpeek; exact absurd hpeek (by decide)
    | cons d ds => rw [hr] at hpeek; simp at hpeek; exact ⟨ds, by rw [hpeek]⟩
  obtain ⟨cs, hrest1⟩ := hrest1
  have hcur2 : (Lexer.skipF (l.rest.length + 1) l).2.read_char.cur_ch = '=' :=
    Lexer.read_char_cur_of_cons hrest1
  have hstep1 : (Lexer.skipF (l.rest.length + 1) l).2.remainingChars =
      c :: (Lexer.skipF (l.rest.length + 1) l).2.read_char.remainingChars := by
    rw [← hc]
    exact Lexer.remainingChars_step (hc ▸ hcE) hnn1.2
  have hnn2 : (Lexer.skipF (l.rest.length + 1) l).2.read_char.NoNul := hnn1.read_char_noNul
  have hstep2 : (Lexer.skipF (l.rest.length + 1) l).2.read_char.remainingChars =
      '=' :: (Lexer.skipF (l.rest.length + 1) l).2.read_char.read_char.remainingChars := by
    rw [← hcur2]
    exact Lexer.remainingChars_step (hcur2 ▸ (by decide : ('=' : Char) ≠ EMPTY_CHAR)) hnn2.2
  rw [Lexer.ScanSpec, heq]
  constructor
  · intro h
    exact absurd h htt
  · intro hg
    have hg1 := hsk.2.2.2 hg
    refine ⟨?_, hg1.read_char_good.read_char_good, fun h => absurd h htt, fun _ => ?_⟩
    · rw [hsk.1, hstep1, hstep2, hlit]
      simp
    · have h2 := congrArg List.length (hsk.1)
      have h3 := congrArg List.length hstep1
      have h4 := congrArg List.length hstep2
      simp only [List.length_append, List.length_cons] at h2 h3 h4
      show (Lexer.skipF (l.rest.length + 1) l).2.read_char.read_char.remainingChars.length <
        l.remainingChars.length
      omega

theorem Lexer.nextScanF_scanSpec : ∀ (n : Nat) (l : Lexer), l.rest.length < n → l.NoNul →
    Lexer.ScanSpec l (Lexer.nextScanF n l) := by
  intro n
  induction n with
  | zero => intro l h; exact absurd h (Nat.not_lt_zero _)
  | succ n ih =>
    intro l hlen hnn
    have hsk := Lexer.skipF_spec (l.rest.length + 1) l (Nat.lt_succ_self _) hnn
    have hnn1 : (Lexer.skipF (l.rest.length + 1) l).2.NoNul := hsk.2.2.1
    by_cases h0 : (Lexer.skipF (l.rest.length + 1) l).2.cur_ch = EMPTY_CHAR
    · have hrest1 : (Lexer.skipF (l.rest.length + 1) l).2.rest = [] := hnn1.1 h0
      have heq : Lexer.nextScanF (n + 1) l =
          ((Lexer.skipF (l.rest.length + 1) l).1,
           Token.mk TokenType.EOF "" ((Lexer.skipF (l.rest.length + 1) l).2.location),
           (Lexer.skipF (l.rest.length + 1) l).2.read_char) := by
        simp [Lexer.nextScanF, h0]
      rw [Lexer.ScanSpec, heq]
      constructor
      · intro _
        refine ⟨?_, Lexer.read_char_cur_of_nil hrest1, Lexer.read_char_rest_of_nil hrest1, ?_⟩
        · rw [Lexer.read_char_location_of_nil hrest1]
        · rw [Lexer.read_char_peeked]
          exact Lexer.skipF_peeked _ l
      · intro hg
        have hg1 := hsk.2.2.2 hg
        have hrem1 : (Lexer.skipF (l.rest.length + 1) l).2.remainingChars = [] :=
          Lexer.remainingChars_of_empty h0
        have hrem2 : (Lexer.skipF (l.rest.length + 1) l).2.read_char.remainingChars = [] :=
          Lexer.remainingChars_of_empty (Lexer.read_char_cur_of_nil hrest1)
        refine ⟨?_, hg1.read_char_good, fun _ => hrem2, fun hne => absurd rfl hne⟩
        rw [hsk.1, hrem1, hrem2]; simp
    by_cases h1 : (Lexer.skipF (l.rest.length + 1) l).2.cur_ch = '='
    · have heq : Lexer.nextScanF (n + 1) l =
          ((Lexer.skipF (l.rest.length + 1) l).1,
           Token.mk TokenType.Eq "=" ((Lexer.skipF (l.rest.length + 1) l).2.location),
           (Lexer.skipF (l.rest.length + 1) l).2.read_char) := by
        simp [Lexer.nextScanF, h1, EMPTY_CHAR, QUOTE, LBRACE_CHAR, RBRACE_CHAR]
      exact Lexer.scanSpec_single hlen hnn heq h1 rfl (by decide) (by decide)
    by_cases h2 : (Lexer.skipF (l.rest.length + 1) l).2.cur_ch = '!'
    · by_cases hp2 : (Lexer.skipF (l.rest.length + 1) l).2.peek_char = '='
      · have heq : Lexer.nextScanF (n + 1) l =
            ((Lexer.skipF (l.rest.length + 1) l).1,
             Token.mk TokenType.NotEq "!=" ((Lexer.skipF (l.rest.length + 1) l).2.read_char.location),
             (Lexer.skipF (l.rest.length + 1) l).2.read_char.read_char) := by
          simp [Lexer.nextScanF, h2, hp2, EMPTY_CHAR]
        exact Lexer.scanSpec_compound hlen hnn heq h2 hp2 rfl (by decide) (by decide)
      · have heq : Lexer.nextScanF (n + 1) l =
            ((Lexer.skipF (l.rest.length + 1) l).1,
             Token.mk TokenType.Bang (String.singleton '!') ((Lexer.skipF (l.rest.length + 1) l).2.location),
             (Lexer.skipF (l.rest.length + 1) l).2.read_char) := by
          simp [Lexer.nextScanF, h2, hp2, EMPTY_CHAR]
        exact Lexer.scanSpec_single hlen hnn heq h2 rfl (by decide) (by decide)
    by_cases h3 : (Lexer.skipF (l.rest.length + 1) l).2.cur_ch = '<'
    · by_cases hp3 : (Lexer.skipF (l.rest.length + 1) l).2.peek_char = '='
      · have heq : Lexer.nextScanF (n + 1) l =
            ((Lexer.skipF (l.rest.length + 1) l).1,
             Token.mk TokenType.Lte "<=" ((Lexer.skipF (l.rest.length + 1) l).2.read_char.location),
             (Lexer.skipF (l.rest.length + 1) l).2.read_char.read_char) := by
          simp [Lexer.nextScanF, h3, hp3, EMPTY_CHAR]
        exact Lexer.scanSpec_compound hlen hnn heq h3 hp3 rfl (by decide) (by decide)
      · have heq : Lexer.nextScanF (n + 1) l =
            ((Lexer.skipF (l.rest.length + 1) l).1,
             Token.mk TokenType.Lt (String.singleton '<') ((Lexer.skipF (l.rest.length + 1) l).2.location),
             (Lexer.skipF (l.rest.length + 1) l).2.read_char) := by
          simp [Lexer.nextScanF, h3, hp3, EMPTY_CHAR]
        exact Lexer.scanSpec_single hlen hnn heq h3 rfl (by decide) (by decide)
    by_cases h4 : (Lexer.skipF (l.rest.length + 1) l).2.cur_ch = '>'
    · by_cases hp4 : (Lexer.skipF (l.rest.length + 1) l).2.peek_char = '='
      · have heq : Lexer.nextScanF (n + 1) l =
            ((Lexer.skipF (l.rest.length + 1) l).1,
             Token.mk TokenType.Gte ">=" ((Lexer.skipF (l.rest.length + 1) l).2.read_char.location),
             (Lexer.skipF (l.rest.length + 1) l).2.read_char.read_char) := by
          simp [Lexer.nextScanF, h4, hp4, EMPTY_CHAR]
        exact Lexer.scanSpec_compound hlen hnn heq h4 hp4 rfl (by decide) (by decide)
      · have heq : Lexer.nextScanF (n + 1) l =
            ((Lexer.skipF (l.rest.length + 1) l).1,
             Token.mk TokenType.Gt (String.singleton '>') ((Lexer.skipF (l.rest.length + 1) l).2.location),
             (Lexer.skipF (l.rest.length + 1) l).2.read_char) := by
          simp [Lexer.nextScanF, h4, hp4, EMPTY_CHAR]
        exact Lexer.scanSpec_single hlen hnn heq h4 rfl (by decide) (by decide)
    by_cases h5 : (Lexer.skipF (l.rest.length + 1) l).2.cur_ch = ';'
    · have heq : Lexer.nextScanF (n + 1) l =
          ((Lexer.skipF (l.rest.length + 1) l).1,
           Token.mk TokenType.Semicolon (String.singleton ';') ((Lexer.skipF (l.rest.length + 1) l).2.location),
           (Lexer.skipF (l.rest.length + 1) l).2.read_char) := by
        simp [Lexer.nextScanF, h5, EMPTY_CHAR, QUOTE, LBRACE_CHAR, RBRACE_CHAR]
      exact Lexer.scanSpec_single hlen hnn heq h5 rfl (by decide) (by decide)
    by_cases h6 : (Lexer.skipF (l.rest.length + 1) l).2.cur_ch = ':'
    · rw [Lexer.ScanSpec]
      constructor
      · intro htok
        exfalso
        by_cases hc2 : (Lexer.skipF (l.rest.length + 1) l).2.read_char.cur_ch = ':'
        · have heq : Lexer.nextScanF (n + 1) l =
              ((Lexer.skipF (l.rest.length + 1) l).1,
               Token.mk TokenType.DoubleColon "::" ((Lexer.skipF (l.rest.length + 1) l).2.read_char.read_char.location),
               (Lexer.skipF (l.rest.length + 1) l).2.read_char.read_char) := by
            simp [Lexer.nextScanF, h6, hc2, EMPTY_CHAR]
          rw [heq] at htok
          simp at htok
        · have heq : Lexer.nextScanF (n + 1) l =
              ((Lexer.skipF (l.rest.length + 1) l).1,
               Token.mk TokenType.Colon (String.singleton ':') ((Lexer.skipF (l.rest.length + 1) l).2.read_char.location),
               (Lexer.skipF (l.rest.length + 1) l).2.read_char.read_char) := by
            simp [Lexer.nextScanF, h6, hc2, EMPTY_CHAR]
          rw [heq] at htok
          simp at htok
      · intro hg
        have hg1 := hsk.2.2.2 hg
        have hok : CharOk ((Lexer.skipF (l.rest.length + 1) l).2.cur_ch) := hg1.2.1 (by rw [h6]; decide)
        exact absurd h6 hok.2.2
    by_cases h7 : (Lexer.skipF (l.rest.length + 1) l).2.cur_ch = '.'
    · have heq : Lexer.nextScanF (n + 1) l =
          ((Lexer.skipF (l.rest.length + 1) l).1,
           Token.mk TokenType.Period (String.singleton '.') ((Lexer.skipF (l.rest.length + 1) l).2.location),
           (Lexer.skipF (l.rest.length + 1) l).2.read_char) := by
        simp [Lexer.nextScanF, h7, EMPTY_CHAR, QUOTE, LBRACE_CHAR, RBRACE_CHAR]
      exact Lexer.scanSpec_single hlen hnn heq h7 rfl (by decide) (by decide)
    by_cases h8 : (Lexer.skipF (l.rest.length + 1) l).2.cur_ch = '('
    · have heq : Lexer.nextScanF (n + 1) l =
          ((Lexer.skipF (l.rest.length + 1) l).1,
           Token.mk TokenType.LParen (String.singleton '(') ((Lexer.skipF (l.rest.length + 1) l).2.location),
           (Lexer.skipF (l.rest.length + 1) l).2.read_char) := by
        simp [Lexer.nextScanF, h8, EMPTY_CHAR, QUOTE, LBRACE_CHAR, RBRACE_CHAR]
      exact Lexer.scanSpec_single hlen hnn heq h8 rfl (by decide) (by decide)
    by_cases h9 : (Lexer.skipF (l.rest.length + 1) l).2.cur_ch = ')'
    · have heq : Lexer.nextScanF (n + 1) l =
          ((Lexer.skipF (l.rest.length + 1) l).1,
           Token.mk TokenType.RParen (String.singleton ')') ((Lexer.skipF (l.rest.length + 1) l).2.location),
           (Lexer.skipF (l.rest.length + 1) l).2.read_char) := by
        simp [Lexer.nextScanF, h9, EMPTY_CHAR, QUOTE, LBRACE_CHAR, RBRACE_CHAR]
      exact Lexer.scanSpec_single hlen hnn heq h9 rfl (by decide) (by decide)
    by_cases h10 : (Lexer.skipF (l.rest.length + 1) l).2.cur_ch = ','
    · have heq : Lexer.nextScanF (n + 1) l =
          ((Lexer.skipF (l.rest.length + 1) l).1,
           Token.mk TokenType.Comma (String.singleton ',') ((Lexer.skipF (l.rest.length + 1) l).2.location),
           (Lexer.skipF (l.rest.length + 1) l).2.read_char) := by
        simp [Lexer.nextScanF, h10, EMPTY_CHAR, QUOTE, LBRACE_CHAR, RBRACE_CHAR]
      exact Lexer.scanSpec_single hlen hnn heq h10 rfl (by decide) (by decide)
    by_cases h11 : (Lexer.skipF (l.rest.length + 1) l).2.cur_ch = '+'
    · have heq : Lexer.nextScanF (n + 1) l =
          ((Lexer.skipF (l.rest.length + 1) l).1,
           Token.mk TokenType.Plus (String.singleton '+') ((Lexer.skipF (l.rest.length + 1) l).2.location),
           (Lexer.skipF (l.rest.length + 1) l).2.read_char) := by
        simp [Lexer.nextScanF, h11, EMPTY_CHAR, QUOTE, LBRACE_CHAR, RBRACE_CHAR]
      exact Lexer.scanSpec_single hlen hnn heq h11 rfl (by decide) (by decide)
    by_cases h12 : (Lexer.skipF (l.rest.length + 1) l).2.cur_ch = LBRACE_CHAR
    · have heq : Lexer.nextScanF (n + 1) l =
          ((Lexer.skipF (l.rest.length + 1) l).1,
           Token.mk TokenType.LBrace (String.singleton LBRACE_CHAR) ((Lexer.skipF (l.rest.length + 1) l).2.location),
           (Lexer.skipF (l.rest.length + 1) l).2.read_char) := by
        simp [Lexer.nextScanF, h12, EMPTY_CHAR, QUOTE, LBRACE_CHAR, RBRACE_CHAR]
      exact Lexer.scanSpec_single hlen hnn heq h12 rfl (by decide) (by decide)
    by_cases h13 : (Lexer.skipF (l.rest.length + 1) l).2.cur_ch = '['
    · have heq : Lexer.nextScanF (n + 1) l =
          ((Lexer.skipF (l.rest.length + 1) l).1,
           Token.mk TokenType.LSquareBrace (String.singleton '[') ((Lexer.skipF (l.rest.length + 1) l).2.location),
           (Lexer.skipF (l.rest.length + 1) l).2.read_char) := by
        simp [Lexer.nextScanF, h13, EMPTY_CHAR, QUOTE, LBRACE_CHAR, RBRACE_CHAR]
      exact Lexer.scanSpec_single hlen hnn heq h13 rfl (by decide) (by decide)
    by_cases h14 : (Lexer.skipF (l.rest.length + 1) l).2.cur_ch = ']'
    · have heq : Lexer.nextScanF (n + 1) l =
          ((Lexer.skipF (l.rest.length + 1) l).1,
           Token.mk TokenType.RSquareBrace (String.singleton ']') ((Lexer.skipF (l.rest.length + 1) l).2.location),
           (Lexer.skipF (l.rest.length + 1) l).2.read_char) := by
        simp [Lexer.nextScanF, h14, EMPTY_CHAR, QUOTE, LBRACE_CHAR, RBRACE_CHAR]
      exact Lexer.scanSpec_single hlen hnn heq h14 rfl (by decide) (by decide)
    by_cases h15 : (Lexer.skipF (l.rest.length + 1) l).2.cur_ch = RBRACE_CHAR
    · have heq : Lexer.nextScanF (n + 1) l =
          ((Lexer.skipF (l.rest.length + 1) l).1,
           Token.mk TokenType.RBrace (String.singleton RBRACE_CHAR) ((Lexer.skipF (l.rest.length + 1) l).2.location),
           (Lexer.skipF (l.rest.length + 1) l).2.read_char) := by
        simp [Lexer.nextScanF, h15, EMPTY_CHAR, QUOTE, LBRACE_CHAR, RBRACE_CHAR]
      exact Lexer.scanSpec_single hlen hnn heq h15 rfl (by decide) (by decide)
    by_cases h16 : (Lexer.skipF (l.rest.length + 1) l).2.cur_ch = '-'
    · by_cases hp16 : (Lexer.skipF (l.rest.length + 1) l).2.peek_char = '-'
      · -- line comment: skip to end of line and recurse (the `return self.next()`)
        have heq : Lexer.nextScanF (n + 1) l =
            ((Lexer.skipF (l.rest.length + 1) l).1 ++ (Lexer.skipToEolF ((Lexer.skipF (l.rest.length + 1) l).2.rest.length + 1) (Lexer.skipF (l.rest.length + 1) l).2).1
               ++ (Lexer.nextScanF n (Lexer.skipToEolF ((Lexer.skipF (l.rest.length + 1) l).2.rest.length + 1) (Lexer.skipF (l.rest.length + 1) l).2).2).1,
             (Lexer.nextScanF n (Lexer.skipToEolF ((Lexer.skipF (l.rest.length + 1) l).2.rest.length + 1) (Lexer.skipF (l.rest.length + 1) l).2).2).2.1,
             (Lexer.nextScanF n (Lexer.skipToEolF ((Lexer.skipF (l.rest.length + 1) l).2.rest.length + 1) (Lexer.skipF (l.rest.length + 1) l).2).2).2.2) := by
          simp [Lexer.nextScanF, h16, hp16, EMPTY_CHAR, QUOTE, LBRACE_CHAR, RBRACE_CHAR]
        have hrcons : ∃ cs, (Lexer.skipF (l.rest.length + 1) l).2.rest = '-' :: cs := by
          unfold Lexer.peek_char at hp16
          cases hr : (Lexer.skipF (l.rest.length + 1) l).2.rest with
          | nil => rw [hr] at hp16; exact absurd hp16 (by decide)
          | cons d ds => rw [hr] at hp16; simp at hp16; exact ⟨ds, by rw [hp16]⟩
        obtain ⟨cs, hrcons⟩ := hrcons
        have hTrest : (Lexer.skipToEolF ((Lexer.skipF (l.rest.length + 1) l).2.rest.length + 1) (Lexer.skipF (l.rest.length + 1) l).2).2.rest.length
            < (Lexer.skipF (l.rest.length + 1) l).2.rest.length := by
          have := Lexer.skipToEolF_rest_lt (by rw [h16]; decide) (by rw [h16]; decide)
            hrcons ((Lexer.skipF (l.rest.length + 1) l).2.rest.length)
          exact this
        have hTlen : (Lexer.skipToEolF ((Lexer.skipF (l.rest.length + 1) l).2.rest.length + 1) (Lexer.skipF (l.rest.length + 1) l).2).2.rest.length < n := by
          have h5 := Lexer.skipF_rest_le (l.rest.length + 1) l
          omega
        have hT := Lexer.skipToEolF_spec ((Lexer.skipF (l.rest.length + 1) l).2.rest.length + 1) (Lexer.skipF (l.rest.length + 1) l).2
          (Nat.lt_succ_self _) hnn1
        have ihr := ih (Lexer.skipToEolF ((Lexer.skipF (l.rest.length + 1) l).2.rest.length + 1) (Lexer.skipF (l.rest.length + 1) l).2).2 hTlen hT.2.2.1
        rw [Lexer.ScanSpec, heq]
        constructor
        · intro htok
          have ha := ihr.1 htok
          refine ⟨ha.1, ha.2.1, ha.2.2.1, ?_⟩
          rw [ha.2.2.2, Lexer.skipToEolF_peeked]
          exact Lexer.skipF_peeked _ l
        · intro hg
          have hg1 := hsk.2.2.2 hg
          have hgT := hT.2.2.2 hg1
          have ihb := ihr.2 hgT
          refine ⟨?_, ihb.2.1, ihb.2.2.1, ?_⟩
          · rw [hsk.1, hT.1, ihb.1]
            simp
          · intro hne
            have hlt := ihb.2.2.2 hne
            have e1 := congrArg List.length (hsk.1)
            have e2 := congrArg List.length hT.1
            simp only [List.length_append] at e1 e2
            show (Lexer.nextScanF n (Lexer.skipToEolF ((Lexer.skipF (l.rest.length + 1) l).2.rest.length + 1)
              (Lexer.skipF (l.rest.length + 1) l).2).2).2.2.remainingChars.length < l.remainingChars.length
            omega
      · have heq : Lexer.nextScanF (n + 1) l =
            ((Lexer.skipF (l.rest.length + 1) l).1,
             Token.mk TokenType.Minus (String.singleton '-') ((Lexer.skipF (l.rest.length + 1) l).2.location),
             (Lexer.skipF (l.rest.length + 1) l).2.read_char) := by
          simp [Lexer.nextScanF, h16, hp16, EMPTY_CHAR, QUOTE, LBRACE_CHAR, RBRACE_CHAR]
        exact Lexer.scanSpec_single hlen hnn heq h16 rfl (by decide) (by decide)
    by_cases h17 : (Lexer.skipF (l.rest.length + 1) l).2.cur_ch = '*'
    · have heq : Lexer.nextScanF (n + 1) l =
          ((Lexer.skipF (l.rest.length + 1) l).1,
           Token.mk TokenType.Asterisk (String.singleton '*') ((Lexer.skipF (l.rest.length + 1) l).2.location),
           (Lexer.skipF (l.rest.length + 1) l).2.read_char) := by
        simp [Lexer.nextScanF, h17, EMPTY_CHAR, QUOTE, LBRACE_CHAR, RBRACE_CHAR]
      exact Lexer.scanSpec_single hlen hnn heq h17 rfl (by decide) (by decide)
    by_cases h18 : (Lexer.skipF (l.rest.length + 1) l).2.cur_ch = '/'
    · have heq : Lexer.nextScanF (n + 1) l =
          ((Lexer.skipF (l.rest.length + 1) l).1,
           Token.mk TokenType.Slash (String.singleton '/') ((Lexer.skipF (l.rest.length + 1) l).2.location),
           (Lexer.skipF (l.rest.length + 1) l).2.read_char) := by
        simp [Lexer.nextScanF, h18, EMPTY_CHAR, QUOTE, LBRACE_CHAR, RBRACE_CHAR]
      exact Lexer.scanSpec_single hlen hnn heq h18 rfl (by decide) (by decide)
    by_cases h19 : (Lexer.skipF (l.rest.length + 1) l).2.cur_ch = '?'
    · have heq : Lexer.nextScanF (n + 1) l =
          ((Lexer.skipF (l.rest.length + 1) l).1,
           Token.mk TokenType.Question (String.singleton '?') ((Lexer.skipF (l.rest.length + 1) l).2.location),
           (Lexer.skipF (l.rest.length + 1) l).2.read_char) := by
        simp [Lexer.nextScanF, h19, EMPTY_CHAR, QUOTE, LBRACE_CHAR, RBRACE_CHAR]
      exact Lexer.scanSpec_single hlen hnn heq h19 rfl (by decide) (by decide)
    by_cases h20 : (Lexer.skipF (l.rest.length + 1) l).2.cur_ch = QUOTE
    · have heq : Lexer.nextScanF (n + 1) l =
          (if (Lexer.read_stringF ((Lexer.skipF (l.rest.length + 1) l).2.rest.length + 1) "" (Lexer.skipF (l.rest.length + 1) l).2).1 = true then
            ((Lexer.skipF (l.rest.length + 1) l).1,
             Token.mk TokenType.String (Lexer.read_stringF ((Lexer.skipF (l.rest.length + 1) l).2.rest.length + 1) "" (Lexer.skipF (l.rest.length + 1) l).2).2.1 ((Lexer.read_stringF ((Lexer.skipF (l.rest.length + 1) l).2.rest.length + 1) "" (Lexer.skipF (l.rest.length + 1) l).2).2.2.location),
             (Lexer.read_stringF ((Lexer.skipF (l.rest.length + 1) l).2.rest.length + 1) "" (Lexer.skipF (l.rest.length + 1) l).2).2.2.read_char)
          else
            ((Lexer.skipF (l.rest.length + 1) l).1,
             Token.mk TokenType.ILLIGAL (String.singleton QUOTE) ((Lexer.read_stringF ((Lexer.skipF (l.rest.length + 1) l).2.rest.length + 1) "" (Lexer.skipF (l.rest.length + 1) l).2).2.2.location),
             (Lexer.read_stringF ((Lexer.skipF (l.rest.length + 1) l).2.rest.length + 1) "" (Lexer.skipF (l.rest.length + 1) l).2).2.2)) := by
        simp only [Lexer.nextScanF]
        rw [if_neg (fun e => absurd (h20 ▸ e) (by decide)),
            if_neg (fun e => absurd (h20 ▸ e) (by decide)),
            if_neg (fun e => absurd (h20 ▸ e) (by decide)),
            if_neg (fun e => absurd (h20 ▸ e) (by decide)),
            if_neg (fun e => absurd (h20 ▸ e) (by decide)),
            if_neg (fun e => absurd (h20 ▸ e) (by decide)),
            if_neg (fun e => absurd (h20 ▸ e) (by decide)),
            if_neg (fun e => absurd (h20 ▸ e) (by decide)),
            if_neg (fun e => absurd (h20 ▸ e) (by decide)),
            if_neg (fun e => absurd (h20 ▸ e) (by decide)),
            if_neg (fun e => absurd (h20 ▸ e) (by decide)),
            if_neg (fun e => absurd (h20 ▸ e) (by decide)),
            if_neg (fun e => absurd (h20 ▸ e) (by decide)),
            if_neg (fun e => absurd (h20 ▸ e) (by decide)),
            if_neg (fun e => absurd (h20 ▸ e) (by decide)),
            if_neg (fun e => absurd (h20 ▸ e) (by decide)),
            if_neg (fun e => absurd (h20 ▸ e) (by decide)),
            if_neg (fun e => absurd (h20 ▸ e) (by decide)),
            if_neg (fun e => absurd (h20 ▸ e) (by decide)),
            if_neg (fun e => absurd (h20 ▸ e) (by decide)),
            if_pos h20, h20]
      rw [Lexer.ScanSpec, heq]
      constructor
      · intro htok
        exfalso
        by_cases hb : (Lexer.read_stringF ((Lexer.skipF (l.rest.length + 1) l).2.rest.length + 1) "" (Lexer.skipF (l.rest.length + 1) l).2).1 = true
        · rw [if_pos hb] at htok
          simp at htok
        · rw [if_neg hb] at htok
          simp at htok
      · intro hg
        have hg1 := hsk.2.2.2 hg
        have hok : CharOk ((Lexer.skipF (l.rest.length + 1) l).2.cur_ch) := hg1.2.1 (by rw [h20]; decide)
        exact absurd h20 hok.2.1
    by_cases h21 : ((Lexer.skipF (l.rest.length + 1) l).2.cur_ch).isAlpha = true
    · have heq : Lexer.nextScanF (n + 1) l =
          ((Lexer.skipF (l.rest.length + 1) l).1,
           Token.mk (lookup_ident (Lexer.read_literalF ((Lexer.skipF (l.rest.length + 1) l).2.rest.length + 1) "" (Lexer.skipF (l.rest.length + 1) l).2).1) (Lexer.read_literalF ((Lexer.skipF (l.rest.length + 1) l).2.rest.length + 1) "" (Lexer.skipF (l.rest.length + 1) l).2).1 ((Lexer.read_literalF ((Lexer.skipF (l.rest.length + 1) l).2.rest.length + 1) "" (Lexer.skipF (l.rest.length + 1) l).2).2.location),
           (Lexer.read_literalF ((Lexer.skipF (l.rest.length + 1) l).2.rest.length + 1) "" (Lexer.skipF (l.rest.length + 1) l).2).2) := by
        simp only [Lexer.nextScanF]
        rw [if_neg (fun e => absurd (e ▸ h21) (by decide)),
            if_neg (fun e => absurd (e ▸ h21) (by decide)),
            if_neg (fun e => absurd (e ▸ h21) (by decide)),
            if_neg (fun e => absurd (e ▸ h21) (by decide)),
            if_neg (fun e => absurd (e ▸ h21) (by decide)),
            if_neg (fun e => absurd (e ▸ h21) (by decide)),
            if_neg (fun e => absurd (e ▸ h21) (by decide)),
            if_neg (fun e => absurd (e ▸ h21) (by decide)),
            if_neg (fun e => absurd (e ▸ h21) (by decide)),
            if_neg (fun e => absurd (e ▸ h21) (by decide)),
            if_neg (fun e => absurd (e ▸ h21) (by decide)),
            if_neg (fun e => absurd (e ▸ h21) (by decide)),
            if_neg (fun e => absurd (e ▸ h21) (by decide)),
            if_neg (fun e => absurd (e ▸ h21) (by decide)),
            if_neg (fun e => absurd (e ▸ h21) (by decide)),
            if_neg (fun e => absurd (e ▸ h21) (by decide)),
            if_neg (fun e => absurd (e ▸ h21) (by decide)),
            if_neg (fun e => absurd (e ▸ h21) (by decide)),
            if_neg (fun e => absurd (e ▸ h21) (by decide)),
            if_neg (fun e => absurd (e ▸ h21) (by decide)),
            if_neg (fun e => absurd (e ▸ h21) (by decide)),
            if_pos h21]
      have hfuel : (Lexer.skipF (l.rest.length + 1) l).2.rest.length < (Lexer.skipF (l.rest.length + 1) l).2.rest.length + 1 := Nat.lt_succ_self _
      have hd : (Lexer.read_literalF ((Lexer.skipF (l.rest.length + 1) l).2.rest.length + 1) "" (Lexer.skipF (l.rest.length + 1) l).2).1.data =
          (Lexer.skipF (l.rest.length + 1) l).2.remainingChars.takeWhile identChar := by
        have hx := Lexer.readCharsF_data identChar (by decide) ((Lexer.skipF (l.rest.length + 1) l).2.rest.length + 1) ""
          (Lexer.skipF (l.rest.length + 1) l).2 hfuel
        rw [show ("" : String).data = [] from rfl, List.nil_append] at hx
        exact hx
      have hst : (Lexer.read_literalF ((Lexer.skipF (l.rest.length + 1) l).2.rest.length + 1) "" (Lexer.skipF (l.rest.length + 1) l).2).2.remainingChars =
            (Lexer.skipF (l.rest.length + 1) l).2.remainingChars.dropWhile identChar
          ∧ (Lexer.read_literalF ((Lexer.skipF (l.rest.length + 1) l).2.rest.length + 1) "" (Lexer.skipF (l.rest.length + 1) l).2).2.NoNul
          ∧ ((Lexer.skipF (l.rest.length + 1) l).2.Good → (Lexer.read_literalF ((Lexer.skipF (l.rest.length + 1) l).2.rest.length + 1) "" (Lexer.skipF (l.rest.length + 1) l).2).2.Good)
          ∧ (Lexer.read_literalF ((Lexer.skipF (l.rest.length + 1) l).2.rest.length + 1) "" (Lexer.skipF (l.rest.length + 1) l).2).2.rest.length ≤ (Lexer.skipF (l.rest.length + 1) l).2.rest.length :=
        Lexer.readCharsF_state identChar (by decide) ((Lexer.skipF (l.rest.length + 1) l).2.rest.length + 1) "" (Lexer.skipF (l.rest.length + 1) l).2 hfuel hnn1
      have hsplit : (Lexer.skipF (l.rest.length + 1) l).2.remainingChars = (Lexer.read_literalF ((Lexer.skipF (l.rest.length + 1) l).2.rest.length + 1) "" (Lexer.skipF (l.rest.length + 1) l).2).1.data ++ (Lexer.read_literalF ((Lexer.skipF (l.rest.length + 1) l).2.rest.length + 1) "" (Lexer.skipF (l.rest.length + 1) l).2).2.remainingChars := by
        rw [hd, hst.1]
        exact (List.takeWhile_append_dropWhile _ _).symm
      rw [Lexer.ScanSpec, heq]
      constructor
      · intro htok
        exact absurd htok (lookup_ident_ne_eof _)
      · intro hg
        have hg1 := hsk.2.2.2 hg
        refine ⟨?_, hst.2.2.1 hg1, fun htok => absurd htok (lookup_ident_ne_eof _), fun _ => ?_⟩
        · rw [hsk.1, hsplit]
          simp
        · have hcne : (Lexer.skipF (l.rest.length + 1) l).2.cur_ch ≠ EMPTY_CHAR := fun e => absurd (e ▸ h21) (by decide)
          have hrem := Lexer.remainingChars_of_ne hcne
          have htw : (Lexer.skipF (l.rest.length + 1) l).2.remainingChars.takeWhile identChar =
              (Lexer.skipF (l.rest.length + 1) l).2.cur_ch :: ((Lexer.skipF (l.rest.length + 1) l).2.rest.takeWhile identChar) := by
            rw [hrem]
            exact List.takeWhile_cons_of_pos (identChar_of_alpha h21)
          have e1 := congrArg List.length (hsk.1)
          have e2 := congrArg List.length hsplit
          have e3 := congrArg List.length hd
          have e4 := congrArg List.length htw
          simp only [List.length_append, List.length_cons] at e1 e2 e3 e4
          show (Lexer.read_literalF ((Lexer.skipF (l.rest.length + 1) l).2.rest.length + 1) "" (Lexer.skipF (l.rest.length + 1) l).2).2.remainingChars.length < l.remainingChars.length
          omega
    by_cases h22 : ((Lexer.skipF (l.rest.length + 1) l).2.cur_ch).isDigit = true
    · have heq : Lexer.nextScanF (n + 1) l =
          ((Lexer.skipF (l.rest.length + 1) l).1,
           Token.mk (if (Lexer.read_numberF ((Lexer.skipF (l.rest.length + 1) l).2.rest.length + 1) "" (Lexer.skipF (l.rest.length + 1) l).2).1.data.contains '.' then TokenType.Float else TokenType.Int)
             (Lexer.read_numberF ((Lexer.skipF (l.rest.length + 1) l).2.rest.length + 1) "" (Lexer.skipF (l.rest.length + 1) l).2).1 ((Lexer.read_numberF ((Lexer.skipF (l.rest.length + 1) l).2.rest.length + 1) "" (Lexer.skipF (l.rest.length + 1) l).2).2.location),
           (Lexer.read_numberF ((Lexer.skipF (l.rest.length + 1) l).2.rest.length + 1) "" (Lexer.skipF (l.rest.length + 1) l).2).2) := by
        simp only [Lexer.nextScanF]
        rw [if_neg (fun e => absurd (e ▸ h22) (by decide)),
            if_neg (fun e => absurd (e ▸ h22) (by decide)),
            if_neg (fun e => absurd (e ▸ h22) (by decide)),
            if_neg (fun e => absurd (e ▸ h22) (by decide)),
            if_neg (fun e => absurd (e ▸ h22) (by decide)),
            if_neg (fun e => absurd (e ▸ h22) (by decide)),
            if_neg (fun e => absurd (e ▸ h22) (by decide)),
            if_neg (fun e => absurd (e ▸ h22) (by decide)),
            if_neg (fun e => absurd (e ▸ h22) (by decide)),
            if_neg (fun e => absurd (e ▸ h22) (by decide)),
            if_neg (fun e => absurd (e ▸ h22) (by decide)),
            if_neg (fun e => absurd (e ▸ h22) (by decide)),
            if_neg (fun e => absurd (e ▸ h22) (by decide)),
            if_neg (fun e => absurd (e ▸ h22) (by decide)),
            if_neg (fun e => absurd (e ▸ h22) (by decide)),
            if_neg (fun e => absurd (e ▸ h22) (by decide)),
            if_neg (fun e => absurd (e ▸ h22) (by decide)),
            if_neg (fun e => absurd (e ▸ h22) (by decide)),
            if_neg (fun e => absurd (e ▸ h22) (by decide)),
            if_neg (fun e => absurd (e ▸ h22) (by decide)),
            if_neg (fun e => absurd (e ▸ h22) (by decide)),
            if_neg (not_alpha_of_digit h22), if_pos h22]
      have hne : (if (Lexer.read_numberF ((Lexer.skipF (l.rest.length + 1) l).2.rest.length + 1) "" (Lexer.skipF (l.rest.length + 1) l).2).1.data.contains '.' then TokenType.Float else TokenType.Int)
          ≠ TokenType.EOF := by
        split <;> decide
      have hfuel : (Lexer.skipF (l.rest.length + 1) l).2.rest.length < (Lexer.skipF (l.rest.length + 1) l).2.rest.length + 1 := Nat.lt_succ_self _
      have hd : (Lexer.read_numberF ((Lexer.skipF (l.rest.length + 1) l).2.rest.length + 1) "" (Lexer.skipF (l.rest.length + 1) l).2).1.data =
          (Lexer.skipF (l.rest.length + 1) l).2.remainingChars.takeWhile numChar := by
        have hx := Lexer.readCharsF_data numChar (by decide) ((Lexer.skipF (l.rest.length + 1) l).2.rest.length + 1) ""
          (Lexer.skipF (l.rest.length + 1) l).2 hfuel
        rw [show ("" : String).data = [] from rfl, List.nil_append] at hx
        exact hx
      have hst : (Lexer.read_numberF ((Lexer.skipF (l.rest.length + 1) l).2.rest.length + 1) "" (Lexer.skipF (l.rest.length + 1) l).2).2.remainingChars =
            (Lexer.skipF (l.rest.length + 1) l).2.remainingChars.dropWhile numChar
          ∧ (Lexer.read_numberF ((Lexer.skipF (l.rest.length + 1) l).2.rest.length + 1) "" (Lexer.skipF (l.rest.length + 1) l).2).2.NoNul
          ∧ ((Lexer.skipF (l.rest.length + 1) l).2.Good → (Lexer.read_numberF ((Lexer.skipF (l.rest.length + 1) l).2.rest.length + 1) "" (Lexer.skipF (l.rest.length + 1) l).2).2.Good)
          ∧ (Lexer.read_numberF ((Lexer.skipF (l.rest.length + 1) l).2.rest.length + 1) "" (Lexer.skipF (l.rest.length + 1) l).2).2.rest.length ≤ (Lexer.skipF (l.rest.length + 1) l).2.rest.length :=
        Lexer.readCharsF_state numChar (by decide) ((Lexer.skipF (l.rest.length + 1) l).2.rest.length + 1) "" (Lexer.skipF (l.rest.length + 1) l).2 hfuel hnn1
      have hsplit : (Lexer.skipF (l.rest.length + 1) l).2.remainingChars = (Lexer.read_numberF ((Lexer.skipF (l.rest.length + 1) l).2.rest.length + 1) "" (Lexer.skipF (l.rest.length + 1) l).2).1.data ++ (Lexer.read_numberF ((Lexer.skipF (l.rest.length + 1) l).2.rest.length + 1) "" (Lexer.skipF (l.rest.length + 1) l).2).2.remainingChars := by
        rw [hd, hst.1]
        exact (List.takeWhile_append_dropWhile _ _).symm
      rw [Lexer.ScanSpec, heq]
      constructor
      · intro htok
        exact absurd htok hne
      · intro hg
        have hg1 := hsk.2.2.2 hg
        refine ⟨?_, hst.2.2.1 hg1, fun htok => absurd htok hne, fun _ => ?_⟩
        · rw [hsk.1, hsplit]
          simp
        · have hcne : (Lexer.skipF (l.rest.length + 1) l).2.cur_ch ≠ EMPTY_CHAR := fun e => absurd (e ▸ h22) (by decide)
          have hrem := Lexer.remainingChars_of_ne hcne
          have htw : (Lexer.skipF (l.rest.length + 1) l).2.remainingChars.takeWhile numChar =
              (Lexer.skipF (l.rest.length + 1) l).2.cur_ch :: ((Lexer.skipF (l.rest.length + 1) l).2.rest.takeWhile numChar) := by
            rw [hrem]
            exact List.takeWhile_cons_of_pos (numChar_of_digit h22)
          have e1 := congrArg List.length (hsk.1)
          have e2 := congrArg List.length hsplit
          have e3 := congrArg List.length hd
          have e4 := congrArg List.length htw
          simp only [List.length_append, List.length_cons] at e1 e2 e3 e4
          show (Lexer.read_numberF ((Lexer.skipF (l.rest.length + 1) l).2.rest.length + 1) "" (Lexer.skipF (l.rest.length + 1) l).2).2.remainingChars.length < l.remainingChars.length
          omega
    -- default arm: illegal single character
    have heq : Lexer.nextScanF (n + 1) l =
        ((Lexer.skipF (l.rest.length + 1) l).1,
         Token.mk TokenType.ILLIGAL (String.singleton ((Lexer.skipF (l.rest.length + 1) l).2.cur_ch)) ((Lexer.skipF (l.rest.length + 1) l).2.location),
         (Lexer.skipF (l.rest.length + 1) l).2.read_char) := by
      simp [Lexer.nextScanF, h0, h1, h2, h3, h4, h5, h6, h7, h8, h9, h10, h11, h12, h13,
        h14, h15, h16, h17, h18, h19, h20, h21, h22]
    exact Lexer.scanSpec_single hlen hnn heq rfl rfl h0 (by decide)

/-! ### Claim C3 -/

theorem Lexer.read_char_eta {l : Lexer} (hc : l.cur_ch = EMPTY_CHAR) (hr : l.rest = []) :
    l.read_char = l := by
  rcases l with ⟨rest, pk, lns, cl, cp, cc⟩
  simp only at hc hr
  subst hc
  subst hr
  rfl

theorem Lexer.nextScanF_at_eof {l : Lexer} (hc : l.cur_ch = EMPTY_CHAR) (hr : l.rest = [])
    (n : Nat) :
    Lexer.nextScanF (n + 1) l = ([], Token.mk TokenType.EOF "" l.location, l) := by
  have hws : ¬ rustIsWhitespace l.cur_ch = true := by rw [hc]; decide
  simp [Lexer.nextScanF, Lexer.skipF_not_ws hws, hc, Lexer.read_char_eta hc hr]

/-- C3 counterexample: the lexer conflates an embedded NUL character with its
end-of-input sentinel, so on the input `"\x00a"` the first `next()` returns an
end-of-input Token but the second `next()` scans `a` and returns an identifier
— end-of-input is not stable for every input. -/
theorem c3_eof_stability_counterexample :
    (Lexer.next (Lexer.new (String.mk [EMPTY_CHAR, 'a']))).1.token_type = TokenType.EOF
    ∧ (Lexer.next (Lexer.next (Lexer.new (String.mk [EMPTY_CHAR, 'a']))).2).1.token_type
        ≠ TokenType.EOF := by
  decide

/-- C3 (amended): for every lexer state that contains no NUL character (the
states reachable from a NUL-free input) and has an empty lookahead buffer,
once `next()` has returned an end-of-input Token the following `next()` returns
the identical Token and leaves the state — cursor character, line, column and
the rest — completely unchanged; by induction every subsequent call does
likewise. -/
theorem c3_eof_stability (l : Lexer) (hp : l.peeked = none) (hnn : l.NoNul)
    (heof : (Lexer.next l).1.token_type = TokenType.EOF) :
    Lexer.next (Lexer.next l).2 = ((Lexer.next l).1, (Lexer.next l).2) := by
  have hnext := Lexer.next_scan l hp
  rw [hnext] at heof
  have hA := (Lexer.nextScanF_scanSpec (l.rest.length + 1) l (Nat.lt_succ_self _) hnn).1 heof
  have hp2 : (Lexer.nextScanF (l.rest.length + 1) l).2.2.peeked = none := by
    rw [hA.2.2.2, hp]
  rw [hnext, Lexer.next_scan _ hp2, Lexer.nextScanF_at_eof hA.2.1 hA.2.2.1, hA.1]

/-- C3 witness: `c3_eof_stability` instantiated at the empty input. -/
theorem c3_eof_stability_witness :
    (Lexer.new "").peeked = none
    ∧ (Lexer.new "").NoNul
    ∧ (Lexer.next (Lexer.new "")).1.token_type = TokenType.EOF
    ∧ Lexer.next (Lexer.next (Lexer.new "")).2
        = ((Lexer.next (Lexer.new "")).1, (Lexer.next (Lexer.new "")).2) :=
  ⟨rfl, by decide, by decide, c3_eof_stability (Lexer.new "") rfl (by decide) (by decide)⟩

/-! ### Claim C1 -/

theorem Lexer.piecesF_join : ∀ (fuel : Nat) (l : Lexer), l.Good →
    l.remainingChars.length < fuel →
    (Lexer.piecesF fuel l).flatten = l.remainingChars := by
  intro fuel
  induction fuel with
  | zero => intro l _ h; exact absurd h (Nat.not_lt_zero _)
  | succ f ih =>
    intro l hg hlen
    have hs := Lexer.nextScanF_scanSpec (l.rest.length + 1) l (Nat.lt_succ_self _) hg.noNul
    have hB := hs.2 hg
    by_cases he : (Lexer.nextScanF (l.rest.length + 1) l).2.1.token_type = TokenType.EOF
    · have hrw : Lexer.piecesF (f + 1) l =
          [(Lexer.nextScanF (l.rest.length + 1) l).1
            ++ (Lexer.nextScanF (l.rest.length + 1) l).2.1.literal.data] := by
        simp [Lexer.piecesF, he]
      rw [hrw]
      rw [hB.1, hB.2.2.1 he]
      simp
    · have hrw : Lexer.piecesF (f + 1) l =
          ((Lexer.nextScanF (l.rest.length + 1) l).1
            ++ (Lexer.nextScanF (l.rest.length + 1) l).2.1.literal.data)
          :: Lexer.piecesF f (Lexer.nextScanF (l.rest.length + 1) l).2.2 := by
        simp [Lexer.piecesF, he]
      have hlt := hB.2.2.2 he
      have ihr := ih (Lexer.nextScanF (l.rest.length + 1) l).2.2 hB.2.1 (by omega)
      rw [hrw]
      simp only [List.flatten_cons]
      rw [ihr, hB.1]

theorem Lexer.new_good {input : String} (h : ∀ c ∈ input.data, CharOk c) :
    (Lexer.new input).Good := by
  unfold Lexer.new Lexer.Good
  cases hd : input.data with
  | nil => simp
  | cons c cs =>
    have hc := h c (hd ▸ List.mem_cons_self _ _)
    refine ⟨fun he => absurd he ?_, fun _ => ?_, fun d hd2 => ?_⟩
    · simpa using hc.1
    · simpa using hc
    · exact h d (hd ▸ List.mem_cons_of_mem _ (by simpa using hd2))

theorem Lexer.new_remaining {input : String} (h : ∀ c ∈ input.data, CharOk c) :
    (Lexer.new input).remainingChars = input.data := by
  unfold Lexer.new Lexer.remainingChars
  cases hd : input.data with
  | nil => simp
  | cons c cs =>
    have hc := h c (hd ▸ List.mem_cons_self _ _)
    simpa using fun he => absurd he hc.1

/-- C1 counterexample: scanning `"''"` (an empty string literal) consumes both
quote characters but emits a String token with empty text and no skipped
whitespace or comment characters, so the concatenation of skipped characters
and token texts is `""`, not the original input. -/
theorem c1_reconstruction_counterexample :
    String.mk ((Lexer.piecesF 3 (Lexer.new (String.mk [QUOTE, QUOTE]))).flatten) = ""
    ∧ String.mk ((Lexer.piecesF 3 (Lexer.new (String.mk [QUOTE, QUOTE]))).flatten)
        ≠ String.mk [QUOTE, QUOTE] := by
  decide

/-- C1 (amended): for every input text containing no single-quote character, no
colon and no NUL character, concatenating for each successive `next()` call (up
to and including the end-of-input token) the characters the call skipped
(whitespace and line comments) followed by the emitted Token's text exactly
reconstructs the original input.  (Quotes are excluded because string tokens
drop their quote characters, colons because the `:` arm consumes one character
it neither skips nor emits, and NUL because it is conflated with the
end-of-input sentinel.) -/
theorem c1_reconstruction (input : String) (h : ∀ c ∈ input.data, CharOk c) :
    String.mk ((Lexer.piecesF (input.data.length + 1) (Lexer.new input)).flatten) = input := by
  have hg := Lexer.new_good h
  have hrem := Lexer.new_remaining h
  have hlen : (Lexer.new input).remainingChars.length < input.data.length + 1 := by
    rw [hrem]; exact Nat.lt_succ_self _
  rw [Lexer.piecesF_join _ _ hg hlen, hrem]

/-- C1 witness: `c1_reconstruction` instantiated at an input containing a
keyword, an identifier, a line comment, whitespace, a float and punctuation. -/
theorem c1_reconstruction_witness :
    (∀ c ∈ ("select x -- c\n 1.5+(y)" : String).data, CharOk c)
    ∧ String.mk ((Lexer.piecesF (("select x -- c\n 1.5+(y)" : String).data.length + 1)
        (Lexer.new "select x -- c\n 1.5+(y)")).flatten) = "select x -- c\n 1.5+(y)" :=
  ⟨by decide, c1_reconstruction "select x -- c\n 1.5+(y)" (by decide)⟩

/-- C4 witness: `c4_peek_consistency` instantiated at the input `"a"`. -/
theorem c4_peek_consistency_witness :
    (Lexer.peek (Lexer.peek (Lexer.new "a")).2).1 = (Lexer.peek (Lexer.new "a")).1
    ∧ (Lexer.peek (Lexer.peek (Lexer.new "a")).2).2 = (Lexer.peek (Lexer.new "a")).2
    ∧ (Lexer.next (Lexer.peek (Lexer.new "a")).2).1 = (Lexer.peek (Lexer.new "a")).1 :=
  c4_peek_consistency (Lexer.new "a")

/-- C9 witness: `c9_comment_recursion` instantiated at two comment lines. -/
theorem c9_comment_recursion_witness :
    Lexer.nextDepth (Lexer.new (commInput 2)) = 2 + 1 :=
  c9_comment_recursion 2
